import Mathlib

/-!
Verification of the message conversion core of rostful
(src/rostful/src/rostful/message_conversion.py) against its
natural-language specification.

The Python module is shallowly embedded: Python runtime values become the
inductive type `PyValue`, the conversion functions become Lean functions of
the same names, Python exceptions become an explicit error type `ConvErr`
(with `typeErr` standing for builtin Python exceptions such as TypeError and
AttributeError), and the two collaborators that the module consumes become
explicit parameters: the live clock (`rospy.get_rostime`) is a `(secs, nsecs)`
pair of integers, and the installed generated record classes (reachable via
`roslib` loading) are an association list `ClassEnv`.
-/

namespace MsgConv

/-! ## Type tables (message_conversion.py, module level) -/

/-- Embedding of the module-level dict `type_map`: maps the name of a Python
runtime type to the list of schema primitive types it may populate. Keys
absent from the dict give the empty list (the source would raise KeyError,
which is unreachable because callers only look up names of members of
`primitive_types` and `string_types`). -/
def type_map (key : String) : List String :=
  if key = "bool" then ["bool"]
  else if key = "int" then
    ["int8", "byte", "uint8", "char", "int16", "uint16", "int32", "uint32",
     "int64", "uint64", "float32", "float64"]
  else if key = "float" then ["float32", "float64"]
  else if key = "str" then ["string"]
  else if key = "unicode" then ["string"]
  else if key = "long" then ["uint64"]
  else []

/-- Embedding of `ros_time_types`. -/
def ros_time_types : List String := ["time", "duration"]

/-- Embedding of `ros_primitive_types`. -/
def ros_primitive_types : List String :=
  ["bool", "byte", "char", "int8", "uint8", "int16", "uint16", "int32",
   "uint32", "int64", "uint64", "float32", "float64", "string"]

/-- Embedding of `ros_header_types`. -/
def ros_header_types : List String := ["Header", "std_msgs/Header", "roslib/Header"]

/-- Embedding of `ros_binary_types`. -/
def ros_binary_types : List String := ["uint8[]", "char[]"]

/-! ## The regex `list_braces = re.compile(r'\[[^\]]*\]')` and its `sub`

`list_braces.sub("", rostype)` removes every occurrence of a bracket group:
a `[`, followed by any characters other than `]`, followed by the first `]`.
A `[` with no following `]` matches nothing and is kept. We implement the
substitution as a one-pass state machine over the character list: `buf` is
`some cs` while we are inside a candidate group whose kept characters (in
reverse) are `cs`; reaching a `]` discards the group, reaching the end of
the input with an open candidate emits it unchanged. -/

def stripBracesAux : Option (List Char) → List Char → List Char
  | none, [] => []
  | some buf, [] => '[' :: buf.reverse
  | none, c :: rest =>
    if c = '[' then stripBracesAux (some []) rest
    else c :: stripBracesAux none rest
  | some buf, c :: rest =>
    if c = ']' then stripBracesAux none rest
    else stripBracesAux (some (c :: buf)) rest

/-- Embedding of `list_braces.sub("", rostype)`. -/
def stripBraces (rostype : String) : String := ⟨stripBracesAux none rostype.data⟩

example : stripBraces "uint8[]" = "uint8" := rfl
example : stripBraces "int32[4]" = "int32" := rfl
example : stripBraces "pkg/Type[]" = "pkg/Type" := rfl
example : stripBraces "odd[" = "odd[" := rfl

/-! ## Splitting of type strings -/

/-- Embedding of the Python expression `typestring.split("/")` for the one
character separator `/`: splits into the (possibly empty) segments between
occurrences of `/`. -/
def splitSlash : List Char → List (List Char)
  | [] => [[]]
  | c :: rest =>
    if c = '/' then [] :: splitSlash rest
    else
      match splitSlash rest with
      | [] => [[c]]
      | g :: gs => (c :: g) :: gs

example : splitSlash "a/b".data = ["a".data, "b".data] := rfl
example : splitSlash "".data = ["".data] := rfl
example : splitSlash "/pkg//Type/".data
    = ["".data, "pkg".data, "".data, "Type".data, "".data] := rfl

/-- Embedding of `_splittype`: split the string on the `/` delimiter, strip
out empty strings, and require exactly two segments. `none` models the
`raise InvalidTypeStringException(typestring)` path; callers turn it into
their error value. -/
def _splittype (typestring : String) : Option (String × String) :=
  match (splitSlash typestring.data).filter (fun x => x ≠ []) with
  | [a, b] => some (⟨a⟩, ⟨b⟩)
  | _ => none

example : _splittype "pkg/Type" = some ("pkg", "Type") := rfl
example : _splittype "/pkg//Type/" = some ("pkg", "Type") := rfl
example : _splittype "onlyonesegment" = none := rfl
example : _splittype "a/b/c" = none := rfl

/-! ## Base64 (the `standard_b64encode` / `standard_b64decode` collaborators)

Byte strings are lists of naturals (each below 256 for meaningful inputs).
`b64chars` lists the character codes of the standard base64 alphabet
`A-Z a-z 0-9 + /`; 61 is the code of the padding character `=`.
`standard_b64decode` is modelled as a strict chunk decoder: the Python
library raises (binascii.Error / TypeError) on inputs it cannot decode,
which the model signals with `none`. -/

def b64chars : List Nat :=
  [65, 66, 67, 68, 69, 70, 71, 72, 73, 74, 75, 76, 77, 78, 79, 80, 81, 82,
   83, 84, 85, 86, 87, 88, 89, 90,
   97, 98, 99, 100, 101, 102, 103, 104, 105, 106, 107, 108, 109, 110, 111,
   112, 113, 114, 115, 116, 117, 118, 119, 120, 121, 122,
   48, 49, 50, 51, 52, 53, 54, 55, 56, 57, 43, 47]

/-- Character code of the sextet `n` in the base64 alphabet. -/
def sextetChar (n : Nat) : Nat := b64chars.getD n 0

/-- Index of a character code in the base64 alphabet, if present. -/
def charSextet (c : Nat) : Option Nat := go b64chars
where
  go : List Nat → Option Nat
    | [] => none
    | x :: rest => if x = c then some 0 else (go rest).map (· + 1)

/-- Base64 encoding of a byte list, three bytes to four characters, padded
with `=` (code 61). -/
def encodeChunks : List Nat → List Nat
  | [] => []
  | [a] => [sextetChar (a / 4), sextetChar (a % 4 * 16), 61, 61]
  | [a, b] => [sextetChar (a / 4), sextetChar (a % 4 * 16 + b / 16), sextetChar (b % 16 * 4), 61]
  | a :: b :: c :: rest =>
    sextetChar (a / 4) :: sextetChar (a % 4 * 16 + b / 16) ::
      sextetChar (b % 16 * 4 + c / 64) :: sextetChar (c % 64) :: encodeChunks rest

/-- Base64 decoding of a character-code list, four characters to up to three
bytes; fails on characters outside the alphabet, on a length that is not a
multiple of four, and on padding anywhere but the final chunk. -/
def decodeChunks : List Nat → Option (List Nat)
  | [] => some []
  | c1 :: c2 :: c3 :: c4 :: rest =>
    match charSextet c1, charSextet c2 with
    | some s1, some s2 =>
      if c3 = 61 then
        if c4 = 61 ∧ rest = [] then some [s1 * 4 + s2 / 16] else none
      else
        match charSextet c3 with
        | some s3 =>
          if c4 = 61 then
            if rest = [] then some [s1 * 4 + s2 / 16, s2 % 16 * 16 + s3 / 4] else none
          else
            match charSextet c4 with
            | some s4 =>
              (decodeChunks rest).map
                (fun bs => (s1 * 4 + s2 / 16) :: (s2 % 16 * 16 + s3 / 4) :: (s3 % 4 * 64 + s4) :: bs)
            | none => none
        | none => none
    | _, _ => none
  | _ => none

/-- Embedding of the `standard_b64encode` library collaborator on byte strings. -/
def standard_b64encode (s : List Nat) : List Nat := encodeChunks s

/-- Embedding of the `standard_b64decode` library collaborator on byte strings;
`none` models a raised decoding error. -/
def standard_b64decode (s : List Nat) : Option (List Nat) := decodeChunks s

/-- Decoding the alphabet character of a sextet recovers the sextet, and no
sextet encodes to the padding character. -/
theorem charSextet_sextetChar : ∀ n < 64, charSextet (sextetChar n) = some n ∧ sextetChar n ≠ 61 := by
  decide

/-- Decoding inverts encoding on byte lists. -/
theorem decodeChunks_encodeChunks :
    ∀ bs : List Nat, (∀ b ∈ bs, b < 256) → decodeChunks (encodeChunks bs) = some bs
  | [], _ => rfl
  | [a], h => by
    have ha : a < 256 := h a (by simp)
    have h1 := charSextet_sextetChar (a / 4) (by omega)
    have h2 := charSextet_sextetChar (a % 4 * 16) (by omega)
    simp [encodeChunks, decodeChunks, h1.1, h2.1]
    try omega
  | [a, b], h => by
    have ha : a < 256 := h a (by simp)
    have hb : b < 256 := h b (by simp)
    have h1 := charSextet_sextetChar (a / 4) (by omega)
    have h2 := charSextet_sextetChar (a % 4 * 16 + b / 16) (by omega)
    have h3 := charSextet_sextetChar (b % 16 * 4) (by omega)
    simp [encodeChunks, decodeChunks, h1.1, h2.1, h3.1, h3.2]
    try omega
  | a :: b :: c :: d :: rest, h => by
    have ha : a < 256 := h a (by simp)
    have hb : b < 256 := h b (by simp)
    have hc : c < 256 := h c (by simp)
    have h1 := charSextet_sextetChar (a / 4) (by omega)
    have h2 := charSextet_sextetChar (a % 4 * 16 + b / 16) (by omega)
    have h3 := charSextet_sextetChar (b % 16 * 4 + c / 64) (by omega)
    have h4 := charSextet_sextetChar (c % 64) (by omega)
    have ih := decodeChunks_encodeChunks (d :: rest) (fun x hx => h x (by simp [hx]))
    simp [encodeChunks, decodeChunks, h1.1, h2.1, h3.1, h3.2, h4.1, h4.2, ih]
    try omega
  | [a, b, c], h => by
    have ha : a < 256 := h a (by simp)
    have hb : b < 256 := h b (by simp)
    have hc : c < 256 := h c (by simp)
    have h1 := charSextet_sextetChar (a / 4) (by omega)
    have h2 := charSextet_sextetChar (a % 4 * 16 + b / 16) (by omega)
    have h3 := charSextet_sextetChar (b % 16 * 4 + c / 64) (by omega)
    have h4 := charSextet_sextetChar (c % 64) (by omega)
    simp [encodeChunks, decodeChunks, h1.1, h2.1, h3.1, h3.2, h4.1, h4.2]
    try omega

/-! ## Python runtime values

Python 2 runtime values as the conversion code distinguishes them. A `str`
(the same type as `bytes` in Python 2) is a byte string, carried as a list
of naturals. Distinct constructors carry rospy `Time` and `Duration`
instances (attributes `secs` and `nsecs`, which `setattr` can set to any
value, hence `PyValue` components) and generated message instances
(`_type` string plus the `__slots__` / `_slot_types` / attribute-value
triples; slot names are assumed distinct, as guaranteed by the message
generator). Dict keys are text; the conversion code only ever builds and
reads dicts keyed by field names. -/

inductive PyValue where
  | pynone
  | pybool (b : Bool)
  | pyint (n : Int)
  | pyfloat (q : Rat)
  | pystr (s : List Nat)
  | pylist (xs : List PyValue)
  | pytuple (xs : List PyValue)
  | pydict (entries : List (String × PyValue))
  | pytime (secs nsecs : PyValue)
  | pyduration (secs nsecs : PyValue)
  | pymsg (typ : String) (fields : List (String × String × PyValue))
deriving Repr

open PyValue

/-- Byte-string literal helper: the Python `str` holding the bytes of `s`. -/
def strLit (s : String) : PyValue := .pystr (s.data.map Char.toNat)

/-- Result of Python `type(v).__name__` on the embedded values (the class
name of a message instance is the final segment of its type string). -/
def pyTypeName : PyValue → String
  | .pynone => "NoneType"
  | .pybool _ => "bool"
  | .pyint _ => "int"
  | .pyfloat _ => "float"
  | .pystr _ => "str"
  | .pylist _ => "list"
  | .pytuple _ => "tuple"
  | .pydict _ => "dict"
  | .pytime _ _ => "Time"
  | .pyduration _ _ => "Duration"
  | .pymsg t _ => ⟨(splitSlash t.data).getLastD t.data⟩

/-- Lookup in a dict by key (keys are distinct in every dict the module
builds or receives from a JSON decoder). -/
def dictLookup : List (String × PyValue) → String → Option PyValue
  | [], _ => none
  | (k, v) :: rest, key => if k = key then some v else dictLookup rest key

/-- Lookup of a slot by name in the field triples of a message instance:
returns the declared slot type and the current attribute value. -/
def slotLookup : List (String × String × PyValue) → String → Option (String × PyValue)
  | [], _ => none
  | (n, ty, v) :: rest, k => if n = k then some (ty, v) else slotLookup rest k

/-- Set the value of slot `k` (keeping its declared type) in field triples;
no change when the slot is absent — callers check presence first. -/
def setattrF : List (String × String × PyValue) → String → PyValue → List (String × String × PyValue)
  | [], _, _ => []
  | (n, ty, w) :: rest, k, v =>
    if n = k then (n, ty, v) :: rest else (n, ty, w) :: setattrF rest k v

/-- Python `getattr(i, k)` for the attributes the module reads: `secs` and
`nsecs` of Time and Duration instances, and the slots of message instances. -/
def pyGetattr (i : PyValue) (k : String) : Option PyValue :=
  match i with
  | .pytime s n => if k = "secs" then some s else if k = "nsecs" then some n else none
  | .pyduration s n => if k = "secs" then some s else if k = "nsecs" then some n else none
  | .pymsg _ fs => (slotLookup fs k).map (fun p => p.2)
  | _ => none

/-- Python `setattr(i, k, v)` on a message instance (no change otherwise;
the callers below only use it after a presence check). -/
def pySetattr (i : PyValue) (k : String) (v : PyValue) : PyValue :=
  match i with
  | .pymsg t fs => .pymsg t (setattrF fs k v)
  | _ => i

/-- Whether a message instance has slot `k`. -/
def hasSlot (i : PyValue) (k : String) : Bool :=
  match i with
  | .pymsg _ fs => (slotLookup fs k).isSome
  | _ => false

/-! ## Errors

The exception classes of the source become one error type. `typeErr` stands
for builtin Python exceptions (TypeError, AttributeError) raised by the
interpreter rather than constructed by the module. The three load failure
kinds (InvalidPackageException, InvalidModuleException,
InvalidClassException) are collapsed into `loadError`, since loading is a
collaborator call and no claim distinguishes them. `invalidMessage` embeds
InvalidMessageException. -/

inductive ConvErr where
  | invalidMessage (instTypeName : String)
  | typeErr (message : String)
  | nonexistentField (basetype : String) (fields : List String)
  | fieldTypeMismatch (roottype : String) (fields : List String) (expectedType foundType : String)
  | invalidTypeString (typestring : String)
  | loadError (modname classname : String)
deriving Repr, DecidableEq

/-- Result of a deserialization call. Python mutates a supplied target
instance in place, so when a call raises, the caller still observes the
mutations made before the raise; `err` therefore carries, next to the
error, the state of the seed instance argument at the time of the raise
(`none` when no seed was supplied). -/
inductive Res where
  | ok (v : PyValue)
  | err (e : ConvErr) (seedAfter : Option PyValue)
deriving Repr

/-! ## The class registry seen by conversion

Conversion resolves a type string to a generated class only through
`_get_msg_class`. For conversion we model the installed classes as a pure
environment keyed by normalized "package/Type" strings (the mutable cache
of the source changes which lookups are loads, never which class a string
resolves to; the stateful cache itself is modelled separately below for
the registry claims). -/

structure MsgClassDef where
  typ : String
  fields : List (String × String × PyValue)
deriving Repr

/-- Calling the class: a default instance with the declared slots. -/
def instantiate (c : MsgClassDef) : PyValue := .pymsg c.typ c.fields

abbrev ClassEnv := List (String × MsgClassDef)

def envLookup : ClassEnv → String → Option MsgClassDef
  | [], _ => none
  | (k, c) :: rest, key => if k = key then some c else envLookup rest key

/-- Embedding of `_get_msg_class` over the pure environment: normalize the
type string with `_splittype` (failure models
`raise InvalidTypeStringException`), then obtain the class for the
normalized name; an environment miss models a `_load_class` failure. -/
def _get_msg_class (env : ClassEnv) (typestring : String) : Except ConvErr MsgClassDef :=
  match _splittype typestring with
  | none => .error (.invalidTypeString typestring)
  | some (modname, classname) =>
    match envLookup env (modname ++ "/" ++ classname) with
    | some cls => .ok cls
    | none => .error (.loadError modname classname)

/-! ## Deserialization helpers -/

/-- Embedding of `_to_binary_inst`: a string input is base64 decoded, with
the raw input passed through on failure; other inputs go through
`str(bytearray(msg))`, again passed through unchanged when the coercion
raises. The modelled `bytearray` coercions are: list or tuple of ints (or
bools) in [0, 256), a nonnegative int count n (n zero bytes), and a bool. -/
def _to_binary_inst (msg : PyValue) : PyValue :=
  match msg with
  | .pystr s =>
    match standard_b64decode s with
    | some bs => .pystr bs
    | none => msg
  | _ =>
    match bytearrayCoerce msg with
    | some bs => .pystr bs
    | none => msg
where
  asBytes : List PyValue → Option (List Nat)
    | [] => some []
    | .pyint n :: rest =>
      if 0 ≤ n ∧ n < 256 then (asBytes rest).map (fun bs => n.toNat :: bs) else none
    | .pybool b :: rest => (asBytes rest).map (fun bs => (if b then 1 else 0) :: bs)
    | _ => none
  bytearrayCoerce : PyValue → Option (List Nat)
    | .pylist xs => asBytes xs
    | .pytuple xs => asBytes xs
    | .pyint n => if 0 ≤ n then some (List.replicate n.toNat 0) else none
    | .pybool b => some (List.replicate (if b then 1 else 0) 0)
    | _ => none

/-- The byte string "now". -/
def nowBytes : List Nat := "now".data.map Char.toNat

/-- Whether the input is the literal string "now". -/
def isNowLiteral : PyValue → Bool
  | .pystr s => s = nowBytes
  | _ => false

/-- The rospy live clock value as a Time instance (`rospy.get_rostime()`). -/
def mkTime (now : Int × Int) : PyValue := .pytime (.pyint now.1) (.pyint now.2)

/-- Python `setattr` of `secs` (`isSecs = true`) or `nsecs` on a Time or
Duration instance; on any other value the interpreter raises
AttributeError, which `_to_time_inst` does not catch (its handler is for
TypeError only). -/
def setTimeField (i : PyValue) (isSecs : Bool) (v : PyValue) : Except ConvErr PyValue :=
  match i with
  | .pytime s n => .ok (if isSecs then .pytime v n else .pytime s v)
  | .pyduration s n => .ok (if isSecs then .pyduration v n else .pyduration s v)
  | _ => .error (.typeErr "AttributeError: cannot set secs or nsecs")

/-- The `for field in [secs, nsecs]` copy loop of `_to_time_inst`: the
membership test `field in msg` on a non-dict either raises TypeError
(caught: continue) or, when it succeeds on a string or list containing the
key, the subscript `msg[field]` raises TypeError (caught: continue); so a
copy happens exactly for dict inputs that contain the key. -/
def copyTimeFields (msg i : PyValue) : Except ConvErr PyValue :=
  match msg with
  | .pydict entries => do
    let i1 ← match dictLookup entries "secs" with
      | some v => setTimeField i true v
      | none => pure i
    match dictLookup entries "nsecs" with
      | some v => setTimeField i1 false v
      | none => pure i1
  | _ => .ok i

/-- Embedding of `_to_time_inst`: the literal "now" (time type only)
resolves to the live clock; otherwise a blank instance is constructed when
none is supplied (`return None` for a rostype that is neither time nor
duration — unreachable from `_to_inst`), and `secs` / `nsecs` are copied
from the input when present. -/
def _to_time_inst (now : Int × Int) (msg : PyValue) (rostype : String) (inst : Option PyValue) :
    Except ConvErr PyValue :=
  if rostype = "time" ∧ isNowLiteral msg then .ok (mkTime now)
  else
    let i0 : Option PyValue :=
      match inst with
      | some i => some i
      | none =>
        if rostype = "time" then some (.pytime (.pyint 0) (.pyint 0))
        else if rostype = "duration" then some (.pyduration (.pyint 0) (.pyint 0))
        else none
    match i0 with
    | none => .ok .pynone
    | some i => copyTimeFields msg i

/-- Embedding of `_to_primitive_inst`: the runtime type of the input must
be a primitive or string type whose `type_map` entry contains the schema
type. Strings are re-encoded with `encode("ascii", "ignore")`, modelled as
dropping the bytes at 128 and above. -/
def _to_primitive_inst (msg : PyValue) (rostype roottype : String) (stack : List String) :
    Except ConvErr PyValue :=
  match msg with
  | .pybool _ => if rostype ∈ type_map "bool" then .ok msg else mismatch
  | .pyint _ => if rostype ∈ type_map "int" then .ok msg else mismatch
  | .pyfloat _ => if rostype ∈ type_map "float" then .ok msg else mismatch
  | .pystr s =>
    if rostype ∈ type_map "str" then .ok (.pystr (s.filter (fun b => b < 128))) else mismatch
  | _ => mismatch
where
  mismatch : Except ConvErr PyValue :=
    .error (.fieldTypeMismatch roottype stack rostype (pyTypeName msg))

/-! ## Serialization (`extract_values` and `_from_inst`)

The bodies of `_from_list_inst` (given a value of a list type) and
`_from_object_inst` (iteration over the slots of a message instance) are
inlined into the dispatch of `_from_inst`, with their per-element loops as
the mutual functions `_from_inst_list` and `_from_inst_fields`; the
dispatch order is exactly that of the source: binary, time, primitive,
list, object. `typeErr` results model builtin exceptions the interpreter
would raise (base64 of a non-string, attribute access on a value without
the attribute). -/

mutual

def _from_inst (inst : PyValue) (rostype : String) : Except ConvErr PyValue :=
  if rostype ∈ ros_binary_types then
    match inst with
    | .pystr s => .ok (.pystr (standard_b64encode s))
    | _ => .error (.typeErr "TypeError: b64encode expects a byte string")
  else if rostype ∈ ros_time_types then
    match pyGetattr inst "secs", pyGetattr inst "nsecs" with
    | some s, some n => .ok (.pydict [("secs", s), ("nsecs", n)])
    | _, _ => .error (.typeErr "AttributeError: secs or nsecs")
  else if rostype ∈ ros_primitive_types then .ok inst
  else
    match inst with
    | .pylist xs | .pytuple xs =>
      match xs with
      | [] => .ok (.pylist [])
      | _ =>
        if stripBraces rostype ∈ ros_primitive_types then .ok (.pylist xs)
        else
          match _from_inst_list xs (stripBraces rostype) with
          | .ok vs => .ok (.pylist vs)
          | .error e => .error e
    | .pymsg _ fs =>
      match _from_inst_fields fs with
      | .ok es => .ok (.pydict es)
      | .error e => .error e
    | _ => .error (.typeErr "AttributeError: no slots")

def _from_inst_list (xs : List PyValue) (rostype : String) : Except ConvErr (List PyValue) :=
  match xs with
  | [] => .ok []
  | x :: rest =>
    match _from_inst x rostype with
    | .ok v =>
      match _from_inst_list rest rostype with
      | .ok vs => .ok (v :: vs)
      | .error e => .error e
    | .error e => .error e

def _from_inst_fields (fs : List (String × String × PyValue)) :
    Except ConvErr (List (String × PyValue)) :=
  match fs with
  | [] => .ok []
  | (n, ty, v) :: rest =>
    match _from_inst v ty with
    | .ok u =>
      match _from_inst_fields rest with
      | .ok es => .ok ((n, u) :: es)
      | .error e => .error e
    | .error e => .error e

end

/-- Embedding of `extract_values`: read the `_type` attribute; the source
then executes `raise InvalidMessageException()`, which — because
`InvalidMessageException.__init__` requires the positional argument `inst`
— makes the interpreter raise TypeError at the raise site instead of the
intended exception. -/
def extract_values (inst : PyValue) : Except ConvErr PyValue :=
  match inst with
  | .pymsg t _ => _from_inst inst t
  | _ => .error (.typeErr "TypeError: init takes exactly 2 arguments, 1 given")

/-! ## Deserialization (`populate_instance` and `_to_inst`)

As for serialization, the bodies of `_to_list_inst` and `_to_object_inst`
are inlined into `_to_inst` (dispatch order of the source: binary, time,
primitive, list — taken only when a target instance of a list type was
supplied —, object). The per-element loop of `_to_list_inst` is
`_to_inst_list`; the per-key loop of `_to_object_inst` is
`_to_object_fields`, whose error value carries the partially updated
instance (in-place mutation visible to the caller after a raise). -/

/-- Whether a supplied target instance is a Python list or tuple (the test
`inst is not None and type(inst) in list_types` of `_to_inst`). -/
def isListSeed : Option PyValue → Bool
  | some (.pylist _) => true
  | some (.pytuple _) => true
  | _ => false

/-- The `dict(zip(inst.__slots__, inst._slot_types))` access of
`_to_object_inst`: raises AttributeError (uncaught) on a target without
slots. -/
def slotsCheck (i2 : PyValue) (wasNone : Bool) :
    Except (ConvErr × Option PyValue) (PyValue × Bool) :=
  match i2 with
  | .pymsg _ _ => .ok (i2, wasNone)
  | _ => .error (.typeErr "AttributeError: no slots", if wasNone then none else some i2)

/-- Header auto-stamping (`inst.stamp = rospy.get_rostime()` when the
schema type is a header convention) followed by the slots access. -/
def afterSeed (now : Int × Int) (rostype : String) (i : PyValue) (wasNone : Bool) :
    Except (ConvErr × Option PyValue) (PyValue × Bool) :=
  if rostype ∈ ros_header_types then
    if hasSlot i "stamp" then slotsCheck (pySetattr i "stamp" (mkTime now)) wasNone
    else .error (.typeErr "AttributeError: cannot set stamp", if wasNone then none else some i)
  else slotsCheck i wasNone

/-- Seed resolution of `_to_inst` for the record branch
(`if inst is None: inst = _get_msg_class(rostype)()`) composed with header
stamping and the slots access; the Bool records whether the instance was
freshly constructed, and errors carry the seed state the caller observes. -/
def objectSeed (env : ClassEnv) (now : Int × Int) (rostype : String) (inst : Option PyValue) :
    Except (ConvErr × Option PyValue) (PyValue × Bool) :=
  match inst with
  | some i => afterSeed now rostype i false
  | none =>
    match _get_msg_class env rostype with
    | .error e => .error (e, none)
    | .ok cls => afterSeed now rostype (instantiate cls) true

mutual

def _to_inst (env : ClassEnv) (now : Int × Int) (msg : PyValue) (rostype roottype : String)
    (inst : Option PyValue) (stack : List String) : Res :=
  if rostype ∈ ros_binary_types then .ok (_to_binary_inst msg)
  else if rostype ∈ ros_time_types then
    match _to_time_inst now msg rostype inst with
    | .ok v => .ok v
    | .error e => .err e inst
  else if rostype ∈ ros_primitive_types then
    match _to_primitive_inst msg rostype roottype stack with
    | .ok v => .ok v
    | .error e => .err e inst
  else if isListSeed inst then
    match msg with
    | .pylist xs | .pytuple xs =>
      match xs with
      | [] => .ok (.pylist [])
      | _ =>
        match _to_inst_list env now xs (stripBraces rostype) roottype stack with
        | .ok vs => .ok (.pylist vs)
        | .error e => .err e inst
    | _ => .err (.fieldTypeMismatch roottype stack rostype (pyTypeName msg)) inst
  else
    match msg with
    | .pydict entries =>
      match objectSeed env now rostype inst with
      | .error (e, sa) => .err e sa
      | .ok (i2, wasNone) =>
        match _to_object_fields env now entries roottype i2 stack with
        | .ok v => .ok v
        | .error (e, part) => .err e (if wasNone then none else some part)
    | _ =>
      match inst with
      | some i => .err (.fieldTypeMismatch roottype stack rostype (pyTypeName msg)) (some i)
      | none =>
        match _get_msg_class env rostype with
        | .error e => .err e none
        | .ok _ => .err (.fieldTypeMismatch roottype stack rostype (pyTypeName msg)) none

def _to_inst_list (env : ClassEnv) (now : Int × Int) (xs : List PyValue)
    (rostype roottype : String) (stack : List String) : Except ConvErr (List PyValue) :=
  match xs with
  | [] => .ok []
  | x :: rest =>
    match _to_inst env now x rostype roottype none stack with
    | .ok v =>
      match _to_inst_list env now rest rostype roottype stack with
      | .ok vs => .ok (v :: vs)
      | .error e => .error e
    | .err e _ => .error e

def _to_object_fields (env : ClassEnv) (now : Int × Int) (entries : List (String × PyValue))
    (roottype : String) (inst : PyValue) (stack : List String) :
    Except (ConvErr × PyValue) PyValue :=
  match entries with
  | [] => .ok inst
  | (k, v) :: rest =>
    match inst with
    | .pymsg t fs =>
      match slotLookup fs k with
      | none => .error (.nonexistentField roottype (stack ++ [k]), inst)
      | some (fty, fi) =>
        match _to_inst env now v fty roottype (some fi) (stack ++ [k]) with
        | .ok u => _to_object_fields env now rest roottype (.pymsg t (setattrF fs k u)) stack
        | .err e so => .error (e, .pymsg t (setattrF fs k (so.getD fi)))
    | _ => .error (.typeErr "AttributeError: no slots", inst)

end

/-- Embedding of `populate_instance`: deserialize `msg` into `inst` with
both the schema type and the root type taken from the `_type` attribute of
the target (an AttributeError on a target without `_type`, such as None,
is the TypeError-kind failure of the interpreter). -/
def populate_instance (env : ClassEnv) (now : Int × Int) (msg inst : PyValue) : Res :=
  match inst with
  | .pymsg t _ => _to_inst env now msg t t (some inst) []
  | _ => Res.err (.typeErr "AttributeError: no attribute _type") none

/-! ## The stateful registry (`_get_class` with its cache)

For the registry claims the cache is explicit state: an association list
from type strings to loaded classes, where insertion prepends (Python dict
assignment overrides) and lookup takes the first match. Classes are
identified by opaque tokens (naturals): the claims are about cache-key
structure and identity of the returned class, not about class contents.
The loader collaborator (`_load_class`, i.e. manifest load + import +
getattr) is a parameter returning `none` on failure; the lock acquisition
and release around each cache access are correctness-irrelevant in a
single-threaded shallow embedding and are dropped. `didLoad` records
whether the call performed the load step. -/

abbrev Cache := List (String × Nat)

/-- Embedding of `_get_from_cache`. -/
def _get_from_cache : Cache → String → Option Nat
  | [], _ => none
  | (k, v) :: rest, key => if k = key then some v else _get_from_cache rest key

/-- Embedding of `_add_to_cache`. -/
def _add_to_cache (cache : Cache) (key : String) (value : Nat) : Cache :=
  (key, value) :: cache

inductive RegErr where
  | invalidTypeString (typestring : String)
  | loadFailure (modname classname : String)
deriving Repr, DecidableEq

structure RegResult where
  cls : Nat
  cache : Cache
  didLoad : Bool
deriving Repr, DecidableEq

/-- Embedding of `_get_class`: raw-key cache lookup, normalization via
`_splittype`, normalized-key cache lookup, load, then insertion under both
the raw and the normalized key. -/
def _get_class (load : String → String → Option Nat) (cache : Cache) (typestring : String) :
    Except RegErr RegResult :=
  match _get_from_cache cache typestring with
  | some cls => .ok ⟨cls, cache, false⟩
  | none =>
    match _splittype typestring with
    | none => .error (.invalidTypeString typestring)
    | some (modname, classname) =>
      let norm := modname ++ "/" ++ classname
      match _get_from_cache cache norm with
      | some cls => .ok ⟨cls, cache, false⟩
      | none =>
        match load modname classname with
        | none => .error (.loadFailure modname classname)
        | some cls =>
          .ok ⟨cls, _add_to_cache (_add_to_cache cache typestring cls) norm cls, true⟩

/-! ## Concrete fixtures used in examples and witnesses -/

/-- The std_msgs/Header class: slots seq (uint32), stamp (time),
frame_id (string), with their generated default values. -/
def headerClass : MsgClassDef :=
  ⟨"std_msgs/Header",
   [("seq", "uint32", .pyint 0), ("stamp", "time", .pytime (.pyint 0) (.pyint 0)),
    ("frame_id", "string", strLit "")]⟩

example :
    populate_instance [] (100, 0)
      (.pydict [("frame_id", strLit "base"),
                ("stamp", .pydict [("secs", .pyint 5), ("nsecs", .pyint 6)])])
      (instantiate headerClass)
      = Res.ok (.pymsg "std_msgs/Header"
          [("seq", "uint32", .pyint 0), ("stamp", "time", .pytime (.pyint 5) (.pyint 6)),
           ("frame_id", "string", strLit "base")]) := rfl

example :
    populate_instance [] (100, 0)
      (.pydict [("frame_id", strLit "base")])
      (instantiate headerClass)
      = Res.ok (.pymsg "std_msgs/Header"
          [("seq", "uint32", .pyint 0), ("stamp", "time", .pytime (.pyint 100) (.pyint 0)),
           ("frame_id", "string", strLit "base")]) := rfl

example :
    extract_values (.pymsg "std_msgs/Header"
        [("seq", "uint32", .pyint 7), ("stamp", "time", .pytime (.pyint 5) (.pyint 6)),
         ("frame_id", "string", strLit "base")])
      = .ok (.pydict [("seq", .pyint 7),
                      ("stamp", .pydict [("secs", .pyint 5), ("nsecs", .pyint 6)]),
                      ("frame_id", strLit "base")]) := rfl

/-! ## Helper lemmas -/

/-- Whether a value carries the `_type` attribute (only generated message
instances do). -/
def hasTypeAttr : PyValue → Bool
  | .pymsg _ _ => true
  | _ => false

/-- The `Except` part of a deserialization result, forgetting the recorded
seed state. -/
def resValue : Res → Except ConvErr PyValue
  | .ok v => .ok v
  | .err e _ => .error e

/-- Characterization of `_splittype` failure by the number of nonempty
segments. -/
theorem _splittype_eq_none_iff (t : String) :
    _splittype t = none ↔ ((splitSlash t.data).filter (fun x => x ≠ [])).length ≠ 2 := by
  unfold _splittype
  cases h : (splitSlash t.data).filter (fun x => x ≠ []) with
  | nil => simp
  | cons a l =>
    cases l with
    | nil => simp
    | cons b l2 =>
      cases l2 with
      | nil => simp
      | cons c l3 => simp

/-- A concrete loader collaborator for witnesses: only package `pkg` with
class `Type` is installed, as class token 7. -/
def loadFix : String → String → Option Nat :=
  fun m c => if m = "pkg" ∧ c = "Type" then some 7 else none

/-! ## Claim C2 -/

/-- C2 (code_bug evidence): serializing a value carrying no `_type`
attribute does not fail with the InvalidMessage kind: the source executes
`raise InvalidMessageException()` without the required `inst` constructor
argument, so the interpreter raises TypeError instead. -/
theorem extract_values_without_type_tag_raises_builtin_TypeError :
    ∀ v : PyValue, hasTypeAttr v = false →
      extract_values v = .error (.typeErr "TypeError: init takes exactly 2 arguments, 1 given")
      ∧ ∀ s, extract_values v ≠ .error (.invalidMessage s) := by
  intro v h
  cases v <;> simp_all [extract_values, hasTypeAttr]

/-- C2 witness: the concrete failing input `5`. -/
theorem extract_values_without_type_tag_raises_builtin_TypeError_witness :
    extract_values (.pyint 5)
        = .error (.typeErr "TypeError: init takes exactly 2 arguments, 1 given")
      ∧ ∀ s, extract_values (.pyint 5) ≠ .error (.invalidMessage s) :=
  extract_values_without_type_tag_raises_builtin_TypeError (.pyint 5) rfl

/-! ## Claim C3 -/

/-- C3: resolving a type string fails with InvalidTypeString exactly when
splitting it on `/` and dropping empty segments does not yield exactly two
segments; in particular `onlyonesegment` is rejected, while excess and
leading or trailing slashes around two nonempty segments are accepted and
resolved. -/
theorem resolve_invalid_type_string_iff_segments_ne_two :
    (∀ (load : String → String → Option Nat) (t : String),
      _get_class load [] t = .error (.invalidTypeString t)
        ↔ ((splitSlash t.data).filter (fun x => x ≠ [])).length ≠ 2)
    ∧ (∀ load : String → String → Option Nat,
        _get_class load [] "onlyonesegment" = .error (.invalidTypeString "onlyonesegment"))
    ∧ (∀ (load : String → String → Option Nat) (cls : Nat),
        load "pkg" "Type" = some cls →
          _get_class load [] "/pkg//Type/"
            = .ok ⟨cls, [("pkg/Type", cls), ("/pkg//Type/", cls)], true⟩) := by
  refine ⟨fun load t => ?_, fun load => ?_, fun load cls hl => ?_⟩
  · rw [← _splittype_eq_none_iff]
    cases hs : _splittype t with
    | none => simp [_get_class, _get_from_cache, hs]
    | some mc =>
      obtain ⟨m, c⟩ := mc
      cases hl : load m c <;>
        simp [_get_class, _get_from_cache, _add_to_cache, hs, hl]
  · rfl
  · simp [_get_class, _get_from_cache, _add_to_cache, _splittype, splitSlash, hl]

/-- C3 witness: a concrete accepted string with excess slashes under the
concrete loader. -/
theorem resolve_invalid_type_string_iff_segments_ne_two_witness :
    _get_class loadFix [] "/pkg//Type/" = .ok ⟨7, [("pkg/Type", 7), ("/pkg//Type/", 7)], true⟩ :=
  resolve_invalid_type_string_iff_segments_ne_two.2.2 loadFix 7 rfl

/-! ## Claim C5 -/

/-- C5: a resolve call that performs a load leaves the cache with entries
under both the supplied string and its normalized form, both mapping to the
identical class token, and a subsequent resolve of either string returns
that class from the cache without loading. -/
theorem resolve_cold_caches_raw_and_normalized :
    ∀ (load : String → String → Option Nat) (cache : Cache) (t m c : String) (r : RegResult),
      _splittype t = some (m, c) →
      _get_class load cache t = .ok r →
      r.didLoad = true →
      _get_from_cache r.cache t = some r.cls
      ∧ _get_from_cache r.cache (m ++ "/" ++ c) = some r.cls
      ∧ _get_class load r.cache t = .ok ⟨r.cls, r.cache, false⟩
      ∧ _get_class load r.cache (m ++ "/" ++ c) = .ok ⟨r.cls, r.cache, false⟩ := by
  intro load cache t m c r hsplit hrun hload
  unfold _get_class at hrun
  cases h1 : _get_from_cache cache t with
  | some cls => rw [h1] at hrun; cases hrun; simp_all
  | none =>
    rw [h1, hsplit] at hrun
    cases h2 : _get_from_cache cache (m ++ "/" ++ c) with
    | some cls => simp only [h2] at hrun; cases hrun; simp_all
    | none =>
      simp only [h2] at hrun
      cases h3 : load m c with
      | none => simp only [h3] at hrun; cases hrun
      | some cls =>
        simp only [h3] at hrun
        cases hrun
        have hraw : _get_from_cache
            (_add_to_cache (_add_to_cache cache t cls) (m ++ "/" ++ c) cls) t = some cls := by
          simp only [_add_to_cache, _get_from_cache]
          split <;> simp
        have hnorm : _get_from_cache
            (_add_to_cache (_add_to_cache cache t cls) (m ++ "/" ++ c) cls) (m ++ "/" ++ c)
              = some cls := by
          simp [_add_to_cache, _get_from_cache]
        refine ⟨hraw, hnorm, ?_, ?_⟩
        · unfold _get_class
          rw [hraw]
        · unfold _get_class
          rw [hnorm]

/-- C5 witness: cold resolve of a denormalized string under the concrete
loader, then both cache keys hold class 7 and both strings re-resolve from
the cache without loading. -/
theorem resolve_cold_caches_raw_and_normalized_witness :
    _get_from_cache [("pkg/Type", 7), ("/pkg//Type/", 7)] "/pkg//Type/" = some 7
    ∧ _get_from_cache [("pkg/Type", 7), ("/pkg//Type/", 7)] ("pkg" ++ "/" ++ "Type") = some 7
    ∧ _get_class loadFix [("pkg/Type", 7), ("/pkg//Type/", 7)] "/pkg//Type/"
        = .ok ⟨7, [("pkg/Type", 7), ("/pkg//Type/", 7)], false⟩
    ∧ _get_class loadFix [("pkg/Type", 7), ("/pkg//Type/", 7)] ("pkg" ++ "/" ++ "Type")
        = .ok ⟨7, [("pkg/Type", 7), ("/pkg//Type/", 7)], false⟩ :=
  resolve_cold_caches_raw_and_normalized loadFix [] "/pkg//Type/" "pkg" "Type"
    ⟨7, [("pkg/Type", 7), ("/pkg//Type/", 7)], true⟩ rfl rfl rfl

/-! ## Claim C10 -/

/-- C10: a Python integer deserialized against the floating-point schema
types float32 and float64 is accepted and returned unchanged, because the
`type_map` row for `int` lists every numeric schema type including the
float family. -/
theorem int_input_accepted_for_float_schema_types :
    ∀ (env : ClassEnv) (now : Int × Int) (n : Int) (roottype : String)
      (inst : Option PyValue) (stack : List String),
      _to_inst env now (.pyint n) "float32" roottype inst stack = Res.ok (.pyint n)
      ∧ _to_inst env now (.pyint n) "float64" roottype inst stack = Res.ok (.pyint n)
      ∧ "float32" ∈ type_map "int" ∧ "float64" ∈ type_map "int" := by
  intro env now n roottype inst stack
  refine ⟨rfl, rfl, by simp [type_map], by simp [type_map]⟩

/-! ## Claim C4 -/

/-- C4: deserializing text into a binary-array schema type never raises:
valid base64 text decodes to the bytes it encodes, and text that fails to
decode passes through unchanged. -/
theorem binary_deserialize_lenient_and_decodes :
    ∀ (env : ClassEnv) (now : Int × Int) (roottype : String) (inst : Option PyValue)
      (stack : List String) (s : List Nat) (bt : String), bt ∈ ros_binary_types →
      (∃ v, _to_inst env now (.pystr s) bt roottype inst stack = Res.ok v)
      ∧ (∀ bs, standard_b64decode s = some bs →
          _to_inst env now (.pystr s) bt roottype inst stack = Res.ok (.pystr bs))
      ∧ (standard_b64decode s = none →
          _to_inst env now (.pystr s) bt roottype inst stack = Res.ok (.pystr s))
      ∧ (∀ bs : List Nat, (∀ b ∈ bs, b < 256) →
          standard_b64decode (standard_b64encode bs) = some bs) := by
  intro env now roottype inst stack s bt hbt
  have hbt2 : bt = "uint8[]" ∨ bt = "char[]" := by simpa [ros_binary_types] using hbt
  have hrun : _to_inst env now (.pystr s) bt roottype inst stack
      = .ok (_to_binary_inst (.pystr s)) := by
    rcases hbt2 with h | h <;> subst h <;> rfl
  refine ⟨⟨_, hrun⟩, fun bs hbs => ?_, fun hnone => ?_, decodeChunks_encodeChunks⟩
  · rw [hrun]
    simp [_to_binary_inst, hbs]
  · rw [hrun]
    simp [_to_binary_inst, hnone]

/-- C4 witness: concrete base64 text AAAA decodes to three zero bytes, a
non-base64 text passes through unchanged, and a concrete byte list survives
the encode-decode round trip. -/
theorem binary_deserialize_lenient_and_decodes_witness :
    _to_inst [] (0, 0) (.pystr [65, 65, 65, 65]) "uint8[]" "T" none []
        = Res.ok (.pystr [0, 0, 0])
    ∧ _to_inst [] (0, 0) (strLit "notbase64!") "uint8[]" "T" none []
        = Res.ok (strLit "notbase64!")
    ∧ standard_b64decode (standard_b64encode [10, 200, 31]) = some [10, 200, 31] := by
  refine ⟨?_, ?_, ?_⟩
  · exact (binary_deserialize_lenient_and_decodes [] (0, 0) "T" none [] [65, 65, 65, 65]
      "uint8[]" (by simp [ros_binary_types])).2.1 [0, 0, 0] rfl
  · exact (binary_deserialize_lenient_and_decodes [] (0, 0) "T" none []
      ("notbase64!".data.map Char.toNat) "uint8[]" (by simp [ros_binary_types])).2.2.1 rfl
  · exact (binary_deserialize_lenient_and_decodes [] (0, 0) "T" none [] [] "uint8[]"
      (by simp [ros_binary_types])).2.2.2 [10, 200, 31] (by decide)

/-! ## Lemmas about the object-field loop -/

/-- Setting a slot changes exactly the value stored under that name. -/
theorem slotLookup_setattrF (fs : List (String × String × PyValue)) (k : String) (u : PyValue)
    (f : String) :
    slotLookup (setattrF fs k u) f =
      if f = k then (slotLookup fs f).map (fun p => (p.1, u)) else slotLookup fs f := by
  induction fs with
  | nil => simp [setattrF, slotLookup]
  | cons hd rest ih =>
    obtain ⟨n, ty, w⟩ := hd
    by_cases hnk : n = k
    · subst hnk
      by_cases hfn : f = n
      · subst hfn
        simp [setattrF, slotLookup]
      · simp [setattrF, slotLookup, hfn, Ne.symm hfn]
    · by_cases hfn : f = n
      · subst hfn
        simp [setattrF, slotLookup, hnk]
      · simp [setattrF, slotLookup, hnk, hfn, Ne.symm hfn, ih]

/-- The loop of `_to_object_inst` keeps the class of a message instance. -/
theorem _to_object_fields_ok_shape :
    ∀ (env : ClassEnv) (now : Int × Int) (entries : List (String × PyValue)) (roottype : String)
      (t : String) (fs : List (String × String × PyValue)) (stack : List String) (v : PyValue),
      _to_object_fields env now entries roottype (.pymsg t fs) stack = .ok v →
      ∃ fs2, v = .pymsg t fs2 := by
  intro env now entries
  induction entries with
  | nil =>
    intro roottype t fs stack v h
    simp only [_to_object_fields] at h
    cases h
    exact ⟨fs, rfl⟩
  | cons kv rest ih =>
    intro roottype t fs stack v h
    obtain ⟨k, w⟩ := kv
    simp only [_to_object_fields] at h
    cases hslot : slotLookup fs k with
    | none => simp only [hslot] at h; simp at h
    | some p =>
      obtain ⟨fty, fi⟩ := p
      simp only [hslot] at h
      cases hrec : _to_inst env now w fty roottype (some fi) (stack ++ [k]) with
      | ok u =>
        simp only [hrec] at h
        exact ih roottype t (setattrF fs k u) stack v h
      | err e so => simp only [hrec] at h; simp at h

/-- On success, the loop of `_to_object_inst` leaves every attribute whose
name is not a key of the processed entries unchanged. -/
theorem _to_object_fields_ok_preserves :
    ∀ (env : ClassEnv) (now : Int × Int) (entries : List (String × PyValue)) (roottype : String)
      (inst : PyValue) (stack : List String) (v : PyValue),
      _to_object_fields env now entries roottype inst stack = .ok v →
      ∀ f, f ∉ entries.map Prod.fst → pyGetattr v f = pyGetattr inst f := by
  intro env now entries
  induction entries with
  | nil =>
    intro roottype inst stack v h f _
    simp only [_to_object_fields] at h
    cases h; rfl
  | cons kv rest ih =>
    intro roottype inst stack v h f hf
    obtain ⟨k, w⟩ := kv
    have hfk : f ≠ k := by simpa using (fun h2 => hf (by simp [h2]))
    have hfr : f ∉ rest.map Prod.fst := fun h2 => hf (by simp [h2])
    simp only [_to_object_fields] at h
    cases inst with
    | pymsg t fs =>
      cases hslot : slotLookup fs k with
      | none => simp only [hslot] at h; simp at h
      | some p =>
        obtain ⟨fty, fi⟩ := p
        simp only [hslot] at h
        cases hrec : _to_inst env now w fty roottype (some fi) (stack ++ [k]) with
        | ok u =>
          simp only [hrec] at h
          have := ih roottype (.pymsg t (setattrF fs k u)) stack v h f hfr
          rw [this]
          simp [pyGetattr, slotLookup_setattrF, hfk]
        | err e so => simp only [hrec] at h; simp at h
    | pynone => cases h
    | pybool b => cases h
    | pyint n => cases h
    | pyfloat q => cases h
    | pystr s => cases h
    | pylist xs => cases h
    | pytuple xs => cases h
    | pydict es => cases h
    | pytime a b => cases h
    | pyduration a b => cases h

/-- On failure, the loop of `_to_object_inst` leaves every attribute whose
name is not a key of the entries unchanged in the partially updated
instance carried by the error. -/
theorem _to_object_fields_err_preserves :
    ∀ (env : ClassEnv) (now : Int × Int) (entries : List (String × PyValue)) (roottype : String)
      (inst : PyValue) (stack : List String) (e : ConvErr) (part : PyValue),
      _to_object_fields env now entries roottype inst stack = .error (e, part) →
      ∀ f, f ∉ entries.map Prod.fst → pyGetattr part f = pyGetattr inst f := by
  intro env now entries
  induction entries with
  | nil =>
    intro roottype inst stack e part h f _
    simp only [_to_object_fields] at h
    cases h
  | cons kv rest ih =>
    intro roottype inst stack e part h f hf
    obtain ⟨k, w⟩ := kv
    have hfk : f ≠ k := by simpa using (fun h2 => hf (by simp [h2]))
    have hfr : f ∉ rest.map Prod.fst := fun h2 => hf (by simp [h2])
    simp only [_to_object_fields] at h
    cases inst with
    | pymsg t fs =>
      cases hslot : slotLookup fs k with
      | none =>
        simp only [hslot] at h
        cases h; rfl
      | some p =>
        obtain ⟨fty, fi⟩ := p
        simp only [hslot] at h
        cases hrec : _to_inst env now w fty roottype (some fi) (stack ++ [k]) with
        | ok u =>
          simp only [hrec] at h
          have := ih roottype (.pymsg t (setattrF fs k u)) stack e part h f hfr
          rw [this]
          simp [pyGetattr, slotLookup_setattrF, hfk]
        | err e2 so =>
          simp only [hrec] at h
          cases h
          simp [pyGetattr, slotLookup_setattrF, hfk]
    | pynone => cases h; rfl
    | pybool b => cases h; rfl
    | pyint n => cases h; rfl
    | pyfloat q => cases h; rfl
    | pystr s => cases h; rfl
    | pylist xs => cases h; rfl
    | pytuple xs => cases h; rfl
    | pydict es => cases h; rfl
    | pytime a b => cases h; rfl
    | pyduration a b => cases h; rfl

/-- The loop of `_to_object_inst` over a concatenation: a successful first
part threads its result instance into the second part. -/
theorem _to_object_fields_append :
    ∀ (env : ClassEnv) (now : Int × Int) (pre rest : List (String × PyValue)) (roottype : String)
      (inst i1 : PyValue) (stack : List String),
      _to_object_fields env now pre roottype inst stack = .ok i1 →
      _to_object_fields env now (pre ++ rest) roottype inst stack
        = _to_object_fields env now rest roottype i1 stack := by
  intro env now pre
  induction pre with
  | nil =>
    intro rest roottype inst i1 stack h
    simp only [_to_object_fields] at h
    cases h
    simp
  | cons kv pre2 ih =>
    intro rest roottype inst i1 stack h
    obtain ⟨k, w⟩ := kv
    simp only [_to_object_fields] at h ⊢
    cases inst with
    | pymsg t fs =>
      cases hslot : slotLookup fs k with
      | none => simp only [hslot] at h; simp at h
      | some p =>
        obtain ⟨fty, fi⟩ := p
        simp only [hslot] at h ⊢
        cases hrec : _to_inst env now w fty roottype (some fi) (stack ++ [k]) with
        | ok u =>
          simp only [hrec] at h
          exact ih rest roottype (.pymsg t (setattrF fs k u)) i1 stack h
        | err e so => simp only [hrec] at h; simp at h
    | pynone => cases h
    | pybool b => cases h
    | pyint n => cases h
    | pyfloat q => cases h
    | pystr s => cases h
    | pylist xs => cases h
    | pytuple xs => cases h
    | pydict es => cases h
    | pytime a b => cases h
    | pyduration a b => cases h

/-! ## Unfolding lemmas for `_to_inst` on dict inputs -/

/-- Definitional unfolding of `_to_inst` on a dict input. -/
theorem _to_inst_pydict (env : ClassEnv) (now : Int × Int) (entries : List (String × PyValue))
    (rostype roottype : String) (inst : Option PyValue) (stack : List String) :
    _to_inst env now (.pydict entries) rostype roottype inst stack
      = (if rostype ∈ ros_binary_types then Res.ok (_to_binary_inst (.pydict entries))
         else if rostype ∈ ros_time_types then
           match _to_time_inst now (.pydict entries) rostype inst with
           | .ok v => Res.ok v
           | .error e => Res.err e inst
         else if rostype ∈ ros_primitive_types then
           match _to_primitive_inst (.pydict entries) rostype roottype stack with
           | .ok v => Res.ok v
           | .error e => Res.err e inst
         else if isListSeed inst then
           Res.err (.fieldTypeMismatch roottype stack rostype (pyTypeName (.pydict entries))) inst
         else
           match objectSeed env now rostype inst with
           | .error (e, sa) => Res.err e sa
           | .ok (i2, wasNone) =>
             match _to_object_fields env now entries roottype i2 stack with
             | .ok v => Res.ok v
             | .error (e, part) => Res.err e (if wasNone then none else some part)) := rfl

/-- Unfolding of `_to_inst` on a dict input at a record schema type, for a
target that is not a list or tuple. -/
theorem _to_inst_pydict_record (env : ClassEnv) (now : Int × Int)
    (entries : List (String × PyValue)) (rostype roottype : String) (inst : Option PyValue)
    (stack : List String) (hb : rostype ∉ ros_binary_types) (ht : rostype ∉ ros_time_types)
    (hp : rostype ∉ ros_primitive_types) (hl : isListSeed inst = false) :
    _to_inst env now (.pydict entries) rostype roottype inst stack
      = match objectSeed env now rostype inst with
        | .error (e, sa) => Res.err e sa
        | .ok (i2, wasNone) =>
          match _to_object_fields env now entries roottype i2 stack with
          | .ok v => Res.ok v
          | .error (e, part) => Res.err e (if wasNone then none else some part) := by
  rw [_to_inst_pydict, if_neg hb, if_neg ht, if_neg hp, hl]
  simp

/-- A header-convention type string is none of the binary, time and
primitive types. -/
theorem header_not_special (rostype : String) (hh : rostype ∈ ros_header_types) :
    rostype ∉ ros_binary_types ∧ rostype ∉ ros_time_types ∧ rostype ∉ ros_primitive_types := by
  have h2 : rostype = "Header" ∨ rostype = "std_msgs/Header" ∨ rostype = "roslib/Header" := by
    simpa [ros_header_types] using hh
  rcases h2 with h | h | h <;> subst h <;> exact ⟨by decide, by decide, by decide⟩

/-- Seed computation for a supplied message-instance target at a record
type that is not a header convention. -/
theorem objectSeed_some_plain (env : ClassEnv) (now : Int × Int) (rostype t : String)
    (fs : List (String × String × PyValue)) (hh : rostype ∉ ros_header_types) :
    objectSeed env now rostype (some (.pymsg t fs)) = .ok (.pymsg t fs, false) := by
  unfold objectSeed afterSeed
  simp [hh, slotsCheck]

/-- Seed computation for a supplied message-instance target at a
header-convention type with a stamp slot: the stamp is overwritten with the
live clock before any field of the input is applied. -/
theorem objectSeed_some_header (env : ClassEnv) (now : Int × Int) (rostype t : String)
    (fs : List (String × String × PyValue)) (hh : rostype ∈ ros_header_types)
    (hstamp : (slotLookup fs "stamp").isSome = true) :
    objectSeed env now rostype (some (.pymsg t fs))
      = .ok (.pymsg t (setattrF fs "stamp" (mkTime now)), false) := by
  unfold objectSeed afterSeed
  simp [hh, hasSlot, hstamp, slotsCheck, pySetattr]

/-- Seed computation with no target supplied, at a resolvable non-header
record type: the class is resolved and a default instance constructed. -/
theorem objectSeed_none_plain (env : ClassEnv) (now : Int × Int) (rostype : String)
    (cls : MsgClassDef) (hh : rostype ∉ ros_header_types)
    (hmc : _get_msg_class env rostype = .ok cls) :
    objectSeed env now rostype none = .ok (instantiate cls, true) := by
  unfold objectSeed afterSeed
  simp [hmc, hh, slotsCheck, instantiate]

/-- Seed computation with no target supplied and a failing resolution. -/
theorem objectSeed_none_error (env : ClassEnv) (now : Int × Int) (rostype : String)
    (e : ConvErr) (hmc : _get_msg_class env rostype = .error e) :
    objectSeed env now rostype none = .error (e, none) := by
  unfold objectSeed
  simp [hmc]

/-- The body of `_to_inst` restated as a plain non-recursive definition
(the loops are calls to `_to_inst_list` and `_to_object_fields`);
`_to_inst_eq_body` below is the unfolding equation, provable by cases on
the input value. -/
def _to_inst_body (env : ClassEnv) (now : Int × Int) (msg : PyValue) (rostype roottype : String)
    (inst : Option PyValue) (stack : List String) : Res :=
  if rostype ∈ ros_binary_types then .ok (_to_binary_inst msg)
  else if rostype ∈ ros_time_types then
    match _to_time_inst now msg rostype inst with
    | .ok v => .ok v
    | .error e => .err e inst
  else if rostype ∈ ros_primitive_types then
    match _to_primitive_inst msg rostype roottype stack with
    | .ok v => .ok v
    | .error e => .err e inst
  else if isListSeed inst then
    match msg with
    | .pylist xs | .pytuple xs =>
      match xs with
      | [] => .ok (.pylist [])
      | _ =>
        match _to_inst_list env now xs (stripBraces rostype) roottype stack with
        | .ok vs => .ok (.pylist vs)
        | .error e => .err e inst
    | _ => .err (.fieldTypeMismatch roottype stack rostype (pyTypeName msg)) inst
  else
    match msg with
    | .pydict entries =>
      match objectSeed env now rostype inst with
      | .error (e, sa) => .err e sa
      | .ok (i2, wasNone) =>
        match _to_object_fields env now entries roottype i2 stack with
        | .ok v => .ok v
        | .error (e, part) => .err e (if wasNone then none else some part)
    | _ =>
      match inst with
      | some i => .err (.fieldTypeMismatch roottype stack rostype (pyTypeName msg)) (some i)
      | none =>
        match _get_msg_class env rostype with
        | .error e => .err e none
        | .ok _ => .err (.fieldTypeMismatch roottype stack rostype (pyTypeName msg)) none

/-- Unfolding equation for `_to_inst`. -/
theorem _to_inst_eq_body (env : ClassEnv) (now : Int × Int) (msg : PyValue)
    (rostype roottype : String) (inst : Option PyValue) (stack : List String) :
    _to_inst env now msg rostype roottype inst stack
      = _to_inst_body env now msg rostype roottype inst stack := by
  cases msg <;> rfl

/-- Relation between the seed computations with and without a supplied
instance: the same stamped instance is produced, only the freshness flag
and the error seed state differ. -/
theorem afterSeed_wasNone (now : Int × Int) (rostype : String) (i : PyValue) :
    afterSeed now rostype i true
      = match afterSeed now rostype i false with
        | .ok (i2, _) => .ok (i2, true)
        | .error (e, _) => .error (e, none) := by
  unfold afterSeed
  by_cases hh : rostype ∈ ros_header_types
  · rw [if_pos hh, if_pos hh]
    by_cases hs : hasSlot i "stamp"
    · rw [if_pos hs, if_pos hs]
      unfold slotsCheck
      cases h2 : pySetattr i "stamp" (mkTime now) <;> simp
    · rw [if_neg hs, if_neg hs]
      simp
  · rw [if_neg hh, if_neg hh]
    unfold slotsCheck
    cases i <;> simp

/-- With a resolvable class, the fresh-instance seed computation agrees
with the supplied-default-instance one up to the freshness flag. -/
theorem objectSeed_none_vs_some (env : ClassEnv) (now : Int × Int) (rostype : String)
    (cls : MsgClassDef) (hmc : _get_msg_class env rostype = .ok cls) :
    objectSeed env now rostype none
      = match objectSeed env now rostype (some (instantiate cls)) with
        | .ok (i2, _) => .ok (i2, true)
        | .error (e, _) => .error (e, none) := by
  unfold objectSeed
  rw [hmc]
  exact afterSeed_wasNone now rostype (instantiate cls)

/-- A successful fresh-instance seed computation produces an instance of
the resolved class. -/
theorem objectSeed_none_ok_typ (env : ClassEnv) (now : Int × Int) (rostype : String)
    (cls : MsgClassDef) (i2 : PyValue) (wn : Bool)
    (hmc : _get_msg_class env rostype = .ok cls)
    (h : objectSeed env now rostype none = .ok (i2, wn)) :
    ∃ fs0, i2 = .pymsg cls.typ fs0 := by
  unfold objectSeed afterSeed slotsCheck at h
  simp only [hmc] at h
  by_cases hh : rostype ∈ ros_header_types
  · rw [if_pos hh] at h
    by_cases hs : hasSlot (instantiate cls) "stamp"
    · rw [if_pos hs] at h
      simp only [instantiate, pySetattr] at h
      cases h
      exact ⟨_, rfl⟩
    · rw [if_neg hs] at h
      cases h
  · rw [if_neg hh] at h
    simp only [instantiate] at h
    cases h
    exact ⟨_, rfl⟩

/-! ## Claim C7 -/

/-- C7: in the field loop of `_to_object_inst`, an input key that is not a
slot of the target raises NonexistentField carrying the root type and the
field path extended with that key; a key that is a slot is recursively
deserialized with the current attribute value as seed and the result is
assigned onto the target; and a loop that returns successfully processed
only known keys. -/
theorem unknown_key_raises_nonexistent_field :
    ∀ (env : ClassEnv) (now : Int × Int) (roottype t : String)
      (fs : List (String × String × PyValue)) (stack : List String),
      (∀ (k : String) (v : PyValue) (rest : List (String × PyValue)),
        slotLookup fs k = none →
          _to_object_fields env now ((k, v) :: rest) roottype (.pymsg t fs) stack
            = .error (.nonexistentField roottype (stack ++ [k]), .pymsg t fs))
      ∧ (∀ (entries : List (String × PyValue)) (v : PyValue),
          _to_object_fields env now entries roottype (.pymsg t fs) stack = .ok v →
            ∀ kv ∈ entries, (slotLookup fs kv.1).isSome = true)
      ∧ (∀ (k : String) (v : PyValue) (rest : List (String × PyValue)) (fty : String)
            (fi u : PyValue),
          slotLookup fs k = some (fty, fi) →
          _to_inst env now v fty roottype (some fi) (stack ++ [k]) = Res.ok u →
          _to_object_fields env now ((k, v) :: rest) roottype (.pymsg t fs) stack
            = _to_object_fields env now rest roottype (.pymsg t (setattrF fs k u)) stack) := by
  intro env now roottype t fs stack
  refine ⟨fun k v rest hslot => ?_, fun entries => ?_, fun k v rest fty fi u hslot hrec => ?_⟩
  · simp only [_to_object_fields, hslot]
  · induction entries generalizing fs with
    | nil => intro v _ kv hkv; cases hkv
    | cons kv0 rest ih =>
      intro v h kv hkv
      obtain ⟨k0, w0⟩ := kv0
      simp only [_to_object_fields] at h
      cases hslot : slotLookup fs k0 with
      | none => simp only [hslot] at h; simp at h
      | some p =>
        obtain ⟨fty0, fi0⟩ := p
        simp only [hslot] at h
        cases hrec : _to_inst env now w0 fty0 roottype (some fi0) (stack ++ [k0]) with
        | ok u0 =>
          simp only [hrec] at h
          rcases List.mem_cons.mp hkv with hkv1 | hkv2
          · subst hkv1
            simp [hslot]
          · have := ih (setattrF fs k0 u0) v h kv hkv2
            rw [slotLookup_setattrF] at this
            by_cases hk : kv.1 = k0
            · simp [hk, hslot]
            · simpa [hk] using this
        | err e so => simp only [hrec] at h; simp at h
  · simp only [_to_object_fields, hslot, hrec]

/-- C7 witness: deserializing the mapping with unknown key foo raises
NonexistentField naming foo; a known key is deserialized with the current
attribute value as seed and assigned. -/
theorem unknown_key_raises_nonexistent_field_witness :
    _to_object_fields [] (0, 0) [("foo", .pyint 1)] "pkg/Rec"
        (.pymsg "pkg/Rec" [("a", "int32", .pyint 0)]) []
      = .error (.nonexistentField "pkg/Rec" ["foo"], .pymsg "pkg/Rec" [("a", "int32", .pyint 0)])
    ∧ _to_object_fields [] (0, 0) [("a", .pyint 5)] "pkg/Rec"
        (.pymsg "pkg/Rec" [("a", "int32", .pyint 0)]) []
      = _to_object_fields [] (0, 0) [] "pkg/Rec"
          (.pymsg "pkg/Rec" (setattrF [("a", "int32", .pyint 0)] "a" (.pyint 5))) [] := by
  refine ⟨?_, ?_⟩
  · exact (unknown_key_raises_nonexistent_field [] (0, 0) "pkg/Rec" "pkg/Rec"
      [("a", "int32", .pyint 0)] []).1 "foo" (.pyint 1) [] rfl
  · exact (unknown_key_raises_nonexistent_field [] (0, 0) "pkg/Rec" "pkg/Rec"
      [("a", "int32", .pyint 0)] []).2.2 "a" (.pyint 5) [] "int32" (.pyint 0) (.pyint 5) rfl rfl

/-! ## Claim C8 -/

/-- C8: deserialization is not atomic. When the field loop fails after a
successful prefix, the whole loop fails with the same error and the same
partially updated instance; every attribute not named by a key of the
failing suffix — in particular every sibling assigned by the prefix —
keeps, in that carried instance, the value it had after the prefix ran;
and the enclosing `_to_inst` call surfaces exactly that partially updated
instance as the state of the supplied target. -/
theorem deserialization_not_atomic :
    ∀ (env : ClassEnv) (now : Int × Int) (pre rest : List (String × PyValue))
      (roottype : String) (inst i1 : PyValue) (stack : List String) (e : ConvErr)
      (part : PyValue),
      _to_object_fields env now pre roottype inst stack = .ok i1 →
      _to_object_fields env now rest roottype i1 stack = .error (e, part) →
      _to_object_fields env now (pre ++ rest) roottype inst stack = .error (e, part)
      ∧ (∀ f, f ∉ rest.map Prod.fst → pyGetattr part f = pyGetattr i1 f)
      ∧ (∀ rostype t fs,
          rostype ∉ ros_binary_types → rostype ∉ ros_time_types →
          rostype ∉ ros_primitive_types → rostype ∉ ros_header_types →
          inst = .pymsg t fs →
          _to_inst env now (.pydict (pre ++ rest)) rostype roottype (some inst) stack
            = Res.err e (some part)) := by
  intro env now pre rest roottype inst i1 stack e part hpre hrest
  have happ : _to_object_fields env now (pre ++ rest) roottype inst stack = .error (e, part) := by
    rw [_to_object_fields_append env now pre rest roottype inst i1 stack hpre, hrest]
  refine ⟨happ, ?_, ?_⟩
  · exact _to_object_fields_err_preserves env now rest roottype i1 stack e part hrest
  · intro rostype t fs hb ht hp hh hinst
    subst hinst
    rw [_to_inst_pydict_record env now (pre ++ rest) rostype roottype (some (.pymsg t fs))
      stack hb ht hp rfl]
    simp [objectSeed_some_plain env now rostype t fs hh, happ]

/-- C8 witness: target with int32 slots a and b; the input assigns a = 5
and then fails on b with a type mismatch; the call aborts with the
mismatch, and the carried instance still holds a = 5. -/
theorem deserialization_not_atomic_witness :
    _to_object_fields [] (0, 0) [("a", .pyint 5), ("b", strLit "x")] "pkg/Rec"
        (.pymsg "pkg/Rec" [("a", "int32", .pyint 0), ("b", "int32", .pyint 0)]) []
      = .error (.fieldTypeMismatch "pkg/Rec" ["b"] "int32" "str",
          .pymsg "pkg/Rec" [("a", "int32", .pyint 5), ("b", "int32", .pyint 0)])
    ∧ pyGetattr (.pymsg "pkg/Rec" [("a", "int32", .pyint 5), ("b", "int32", .pyint 0)]) "a"
        = pyGetattr (.pymsg "pkg/Rec" [("a", "int32", .pyint 5), ("b", "int32", .pyint 0)]) "a"
    ∧ _to_inst [] (0, 0)
        (.pydict [("a", .pyint 5), ("b", strLit "x")]) "pkg/Rec" "pkg/Rec"
        (some (.pymsg "pkg/Rec" [("a", "int32", .pyint 0), ("b", "int32", .pyint 0)])) []
      = Res.err (.fieldTypeMismatch "pkg/Rec" ["b"] "int32" "str")
          (some (.pymsg "pkg/Rec" [("a", "int32", .pyint 5), ("b", "int32", .pyint 0)])) := by
  have h := deserialization_not_atomic [] (0, 0) [("a", .pyint 5)] [("b", strLit "x")]
    "pkg/Rec" (.pymsg "pkg/Rec" [("a", "int32", .pyint 0), ("b", "int32", .pyint 0)])
    (.pymsg "pkg/Rec" [("a", "int32", .pyint 5), ("b", "int32", .pyint 0)]) []
    (.fieldTypeMismatch "pkg/Rec" ["b"] "int32" "str")
    (.pymsg "pkg/Rec" [("a", "int32", .pyint 5), ("b", "int32", .pyint 0)]) rfl rfl
  exact ⟨h.1, h.2.1 "a" (by simp), h.2.2 "pkg/Rec" "pkg/Rec"
    [("a", "int32", .pyint 0), ("b", "int32", .pyint 0)]
    (by decide) (by decide) (by decide) (by decide) rfl⟩

/-! ## Claim C9 -/

/-- C9: deserialization accepts a null target. With no target supplied, for
a record schema type whose class the registry resolves, the call behaves
exactly as if the default instance of that class had been supplied (same
value or error), and a successful call returns a populated record of the
resolved class. -/
theorem deserialize_null_target_constructs_default :
    ∀ (env : ClassEnv) (now : Int × Int) (msg : PyValue) (rostype roottype : String)
      (stack : List String) (cls : MsgClassDef),
      rostype ∉ ros_binary_types → rostype ∉ ros_time_types → rostype ∉ ros_primitive_types →
      _get_msg_class env rostype = .ok cls →
      resValue (_to_inst env now msg rostype roottype none stack)
        = resValue (_to_inst env now msg rostype roottype (some (instantiate cls)) stack)
      ∧ (∀ v, _to_inst env now msg rostype roottype none stack = Res.ok v →
          ∃ fs2, v = .pymsg cls.typ fs2) := by
  intro env now msg rostype roottype stack cls hb ht hp hmc
  have hl1 : isListSeed (none : Option PyValue) = false := rfl
  have hl2 : isListSeed (some (instantiate cls)) = false := rfl
  constructor
  · rw [_to_inst_eq_body, _to_inst_eq_body]
    unfold _to_inst_body
    simp only [if_neg hb, if_neg ht, if_neg hp, hl1, hl2, Bool.false_eq_true, if_false]
    cases msg with
    | pydict entries =>
      rw [objectSeed_none_vs_some env now rostype cls hmc]
      cases hos : objectSeed env now rostype (some (instantiate cls)) with
      | error p => obtain ⟨e, sa⟩ := p; simp [resValue]
      | ok p =>
        obtain ⟨i2, wn⟩ := p
        cases hfold : _to_object_fields env now entries roottype i2 stack with
        | ok v => simp [resValue, hfold]
        | error q => obtain ⟨e, part⟩ := q; simp [resValue, hfold]
    | pynone => simp [hmc, resValue]
    | pybool b => simp [hmc, resValue]
    | pyint n => simp [hmc, resValue]
    | pyfloat q => simp [hmc, resValue]
    | pystr s => simp [hmc, resValue]
    | pylist xs => simp [hmc, resValue]
    | pytuple xs => simp [hmc, resValue]
    | pytime a b => simp [hmc, resValue]
    | pyduration a b => simp [hmc, resValue]
    | pymsg mt mfs => simp [hmc, resValue]
  · intro v hv
    rw [_to_inst_eq_body] at hv
    unfold _to_inst_body at hv
    simp only [if_neg hb, if_neg ht, if_neg hp, hl1, Bool.false_eq_true, if_false] at hv
    cases msg with
    | pydict entries =>
      cases hos : objectSeed env now rostype none with
      | error p => obtain ⟨e, sa⟩ := p; simp only [hos] at hv; simp at hv
      | ok p =>
        obtain ⟨i2, wn⟩ := p
        simp only [hos] at hv
        obtain ⟨fs0, hi2⟩ := objectSeed_none_ok_typ env now rostype cls i2 wn hmc hos
        subst hi2
        cases hfold : _to_object_fields env now entries roottype (.pymsg cls.typ fs0) stack with
        | ok v2 =>
          simp only [hfold] at hv
          cases hv
          exact _to_object_fields_ok_shape env now entries roottype cls.typ fs0 stack v hfold
        | error q => obtain ⟨e, part⟩ := q; simp only [hfold] at hv; simp at hv
    | pynone => simp [hmc] at hv
    | pybool b => simp [hmc] at hv
    | pyint n => simp [hmc] at hv
    | pyfloat q => simp [hmc] at hv
    | pystr s => simp [hmc] at hv
    | pylist xs => simp [hmc] at hv
    | pytuple xs => simp [hmc] at hv
    | pytime a b => simp [hmc] at hv
    | pyduration a b => simp [hmc] at hv
    | pymsg mt mfs => simp [hmc] at hv

/-- C9 witness: with no target and a registered class pkg/Rec, a concrete
dict populates a fresh default instance. -/
theorem deserialize_null_target_constructs_default_witness :
    resValue (_to_inst [("pkg/Rec", ⟨"pkg/Rec", [("a", "int32", .pyint 0)]⟩)] (0, 0)
        (.pydict [("a", .pyint 5)]) "pkg/Rec" "pkg/Rec" none [])
      = resValue (_to_inst [("pkg/Rec", ⟨"pkg/Rec", [("a", "int32", .pyint 0)]⟩)] (0, 0)
          (.pydict [("a", .pyint 5)]) "pkg/Rec" "pkg/Rec"
          (some (instantiate ⟨"pkg/Rec", [("a", "int32", .pyint 0)]⟩)) [])
    ∧ ∃ fs2, PyValue.pymsg "pkg/Rec" [("a", "int32", .pyint 5)]
        = PyValue.pymsg (MsgClassDef.mk "pkg/Rec" [("a", "int32", .pyint 0)]).typ fs2 := by
  have h := deserialize_null_target_constructs_default
    [("pkg/Rec", ⟨"pkg/Rec", [("a", "int32", .pyint 0)]⟩)] (0, 0)
    (.pydict [("a", .pyint 5)]) "pkg/Rec" "pkg/Rec" [] ⟨"pkg/Rec", [("a", "int32", .pyint 0)]⟩
    (by decide) (by decide) (by decide) rfl
  exact ⟨h.1, h.2 (.pymsg "pkg/Rec" [("a", "int32", .pyint 5)]) rfl⟩

/-! ## Claim C1 -/

/-- C1 counterexample: deserializing a mapping that contains a stamp entry
into a header-convention record does not ignore it — the secs and nsecs of
the input overwrite the live clock value, so with clock (100, 0) and input
stamp (5, 6) the resulting stamp is (5, 6), not the clock. -/
theorem header_input_stamp_not_ignored_cex :
    populate_instance [] (100, 0)
        (.pydict [("frame_id", strLit "base"),
                  ("stamp", .pydict [("secs", .pyint 5), ("nsecs", .pyint 6)])])
        (instantiate headerClass)
      = Res.ok (.pymsg "std_msgs/Header"
          [("seq", "uint32", .pyint 0), ("stamp", "time", .pytime (.pyint 5) (.pyint 6)),
           ("frame_id", "string", strLit "base")])
    ∧ PyValue.pytime (.pyint 5) (.pyint 6) ≠ mkTime (100, 0) := by
  refine ⟨rfl, ?_⟩
  simp [mkTime]

/-- C1 as amended: deserializing a mapping into a supplied instance at a
header-convention type overwrites the timestamp with the live clock before
the input fields are applied, so whenever the input mapping contains no
stamp key, the resulting stamp is the live clock value (a stamp entry
present in the input is applied on top like any other field, as the
counterexample shows). -/
theorem header_auto_stamp_when_input_lacks_stamp :
    ∀ (env : ClassEnv) (now : Int × Int) (entries : List (String × PyValue))
      (rostype roottype t : String) (fs : List (String × String × PyValue))
      (stack : List String) (v : PyValue),
      rostype ∈ ros_header_types →
      "stamp" ∉ entries.map Prod.fst →
      _to_inst env now (.pydict entries) rostype roottype (some (.pymsg t fs)) stack = Res.ok v →
      pyGetattr v "stamp" = some (mkTime now) := by
  intro env now entries rostype roottype t fs stack v hh hnostamp hv
  obtain ⟨hb, ht, hp⟩ := header_not_special rostype hh
  rw [_to_inst_pydict_record env now entries rostype roottype (some (.pymsg t fs)) stack
    hb ht hp rfl] at hv
  by_cases hst : (slotLookup fs "stamp").isSome
  · rw [objectSeed_some_header env now rostype t fs hh hst] at hv
    cases hfold : _to_object_fields env now entries roottype
        (.pymsg t (setattrF fs "stamp" (mkTime now))) stack with
    | ok v2 =>
      simp only [hfold] at hv
      cases hv
      have hpres := _to_object_fields_ok_preserves env now entries roottype
        (.pymsg t (setattrF fs "stamp" (mkTime now))) stack v hfold "stamp" hnostamp
      rw [hpres]
      obtain ⟨⟨ty, w⟩, hsl⟩ := Option.isSome_iff_exists.mp hst
      simp [pyGetattr, slotLookup_setattrF, hsl]
    | error q => obtain ⟨e, part⟩ := q; simp only [hfold] at hv; simp at hv
  · have hst2 : (slotLookup fs "stamp").isSome = false := by simpa using hst
    have hos : objectSeed env now rostype (some (.pymsg t fs))
        = .error (.typeErr "AttributeError: cannot set stamp", some (.pymsg t fs)) := by
      unfold objectSeed afterSeed
      simp [hh, hasSlot, hst2]
    rw [hos] at hv
    simp at hv

/-- C1 amended witness: deserializing the mapping with only frame_id into a
Header instance yields stamp equal to the live clock (100, 0). -/
theorem header_auto_stamp_when_input_lacks_stamp_witness :
    pyGetattr (.pymsg "std_msgs/Header"
        [("seq", "uint32", .pyint 0), ("stamp", "time", .pytime (.pyint 100) (.pyint 0)),
         ("frame_id", "string", strLit "base")]) "stamp" = some (mkTime (100, 0)) :=
  header_auto_stamp_when_input_lacks_stamp [] (100, 0) [("frame_id", strLit "base")]
    "std_msgs/Header" "std_msgs/Header" "std_msgs/Header" headerClass.fields [] _
    (by decide) (by decide) rfl

/-! ## Round-trip infrastructure (claim C6) -/

/-- The body of `_from_inst` restated as a plain non-recursive definition
(the loops are calls to `_from_inst_list` and `_from_inst_fields`);
`_from_inst_eq_body` below is the unfolding equation. -/
def _from_inst_body (inst : PyValue) (rostype : String) : Except ConvErr PyValue :=
  if rostype ∈ ros_binary_types then
    match inst with
    | .pystr s => .ok (.pystr (standard_b64encode s))
    | _ => .error (.typeErr "TypeError: b64encode expects a byte string")
  else if rostype ∈ ros_time_types then
    match pyGetattr inst "secs", pyGetattr inst "nsecs" with
    | some s, some n => .ok (.pydict [("secs", s), ("nsecs", n)])
    | _, _ => .error (.typeErr "AttributeError: secs or nsecs")
  else if rostype ∈ ros_primitive_types then .ok inst
  else
    match inst with
    | .pylist xs | .pytuple xs =>
      match xs with
      | [] => .ok (.pylist [])
      | _ =>
        if stripBraces rostype ∈ ros_primitive_types then .ok (.pylist xs)
        else
          match _from_inst_list xs (stripBraces rostype) with
          | .ok vs => .ok (.pylist vs)
          | .error e => .error e
    | .pymsg _ fs =>
      match _from_inst_fields fs with
      | .ok es => .ok (.pydict es)
      | .error e => .error e
    | _ => .error (.typeErr "AttributeError: no slots")

/-- Unfolding equation for `_from_inst`. -/
theorem _from_inst_eq_body (inst : PyValue) (rostype : String) :
    _from_inst inst rostype = _from_inst_body inst rostype := by
  cases inst <;> rfl

/-- Every schema type accepted for an integer input is a primitive type and
is disjoint from the binary and time dispatch branches. -/
theorem type_map_int_primitive :
    ∀ r ∈ type_map "int", r ∈ ros_primitive_types
      ∧ r ∉ ros_binary_types ∧ r ∉ ros_time_types := by decide

/-- Every schema type accepted for a float input is a primitive type and is
disjoint from the binary and time dispatch branches. -/
theorem type_map_float_primitive :
    ∀ r ∈ type_map "float", r ∈ ros_primitive_types
      ∧ r ∉ ros_binary_types ∧ r ∉ ros_time_types := by decide

/-- A slot lookup skips a prefix that does not contain the name. -/
theorem slotLookup_append_not_mem (as bs : List (String × String × PyValue)) (k : String)
    (h : k ∉ as.map (fun f => f.1)) :
    slotLookup (as ++ bs) k = slotLookup bs k := by
  induction as with
  | nil => rfl
  | cons a rest ih =>
    obtain ⟨n, ty, w⟩ := a
    have hnk : n ≠ k := by
      intro he
      exact h (by simp [he])
    simp only [List.cons_append, slotLookup, if_neg hnk]
    exact ih (fun he => h (by simp [he]))

/-- A slot update skips a prefix that does not contain the name. -/
theorem setattrF_append_not_mem (as bs : List (String × String × PyValue)) (k : String)
    (u : PyValue) (h : k ∉ as.map (fun f => f.1)) :
    setattrF (as ++ bs) k u = as ++ setattrF bs k u := by
  induction as with
  | nil => rfl
  | cons a rest ih =>
    obtain ⟨n, ty, w⟩ := a
    have hnk : n ≠ k := by
      intro he
      exact h (by simp [he])
    simp only [List.cons_append, setattrF, if_neg hnk, List.cons.injEq, true_and]
    exact ih (fun he => h (by simp [he]))

/-- A slot update keeps the names and declared types of the field triples. -/
theorem setattrF_map_nameTy (fs : List (String × String × PyValue)) (k : String) (u : PyValue) :
    (setattrF fs k u).map (fun f => (f.1, f.2.1)) = fs.map (fun f => (f.1, f.2.1)) := by
  induction fs with
  | nil => rfl
  | cons a rest ih =>
    obtain ⟨n, ty, w⟩ := a
    by_cases hnk : n = k
    · simp [setattrF, hnk]
    · simp [setattrF, hnk, ih]

/-- A name among the slot names has a successful lookup. -/
theorem slotLookup_isSome_of_mem (fs : List (String × String × PyValue)) (k : String)
    (h : k ∈ fs.map (fun f => f.1)) : (slotLookup fs k).isSome = true := by
  induction fs with
  | nil => simp at h
  | cons a rest ih =>
    obtain ⟨n, ty, w⟩ := a
    by_cases hnk : n = k
    · simp [slotLookup, hnk]
    · simp only [List.map_cons, List.mem_cons] at h
      rcases h with h | h
      · exact absurd h.symm hnk
      · simp [slotLookup, hnk, ih h]

/-- Representable values: `Good env now rostype v seed` states that `v` is a
well-formed value of schema type `rostype` whose serialization deserializes
back to `v` when the supplied target is `seed`. The constructors follow the
dispatch of the source: binary byte strings, time and duration instances
(whose secs and nsecs round-trip verbatim whatever they hold), primitives
well-typed per `type_map` (text restricted to ASCII, which the re-encoding
keeps), lists (a list or tuple target supplied, elements representable at
the stripped element type with no target), and records (the target a
default instance of the same class — same slot names and declared types —
supplied directly or resolved from the registry; for header-convention
types the stamp slot must exist and must also round-trip against the
auto-stamped seed). -/
inductive Good (env : ClassEnv) (now : Int × Int) : String → PyValue → Option PyValue → Prop where
  | binary (rostype : String) (s : List Nat) (seed : Option PyValue)
      (hb : rostype ∈ ros_binary_types) (hbytes : ∀ b ∈ s, b < 256) :
      Good env now rostype (.pystr s) seed
  | time (s n : PyValue) (seed : Option PyValue)
      (hseed : seed = none ∨ ∃ a b, seed = some (.pytime a b)) :
      Good env now "time" (.pytime s n) seed
  | duration (s n : PyValue) (seed : Option PyValue)
      (hseed : seed = none ∨ ∃ a b, seed = some (.pyduration a b)) :
      Good env now "duration" (.pyduration s n) seed
  | boolean (b : Bool) (seed : Option PyValue) : Good env now "bool" (.pybool b) seed
  | intlike (rostype : String) (n : Int) (seed : Option PyValue)
      (h : rostype ∈ type_map "int") : Good env now rostype (.pyint n) seed
  | floatlike (rostype : String) (q : Rat) (seed : Option PyValue)
      (h : rostype ∈ type_map "float") : Good env now rostype (.pyfloat q) seed
  | strlike (s : List Nat) (seed : Option PyValue) (h : ∀ b ∈ s, b < 128) :
      Good env now "string" (.pystr s) seed
  | array (rostype : String) (xs : List PyValue) (seed : Option PyValue) (ys : List PyValue)
      (hb : rostype ∉ ros_binary_types) (ht : rostype ∉ ros_time_types)
      (hp : rostype ∉ ros_primitive_types)
      (hseed : seed = some (.pylist ys) ∨ seed = some (.pytuple ys))
      (helem : ∀ x ∈ xs, Good env now (stripBraces rostype) x none) :
      Good env now rostype (.pylist xs) seed
  | obj (rostype t : String) (fields sf : List (String × String × PyValue))
      (seed : Option PyValue)
      (hb : rostype ∉ ros_binary_types) (ht : rostype ∉ ros_time_types)
      (hp : rostype ∉ ros_primitive_types)
      (hseed : seed = some (.pymsg t sf)
        ∨ (seed = none ∧ _get_msg_class env rostype = .ok ⟨t, sf⟩))
      (hnames : sf.map (fun f => (f.1, f.2.1)) = fields.map (fun f => (f.1, f.2.1)))
      (hnodup : (fields.map (fun f => f.1)).Nodup)
      (hdrStamp : rostype ∈ ros_header_types → "stamp" ∈ fields.map (fun f => f.1))
      (hdrGood : rostype ∈ ros_header_types → ∀ p ∈ fields.zip sf, p.1.1 = "stamp" →
          Good env now p.1.2.1 p.1.2.2 (some (.pytime (.pyint now.1) (.pyint now.2))))
      (hfields : ∀ p ∈ fields.zip sf, Good env now p.1.2.1 p.1.2.2 (some p.2.2.2)) :
      Good env now rostype (.pymsg t fields) seed

/-- Binary schema types are not primitive types. -/
theorem binary_not_primitive : ∀ r ∈ ros_binary_types, r ∉ ros_primitive_types := by decide

/-- Serializing a representable value at a primitive schema type returns it
unchanged (this is why the primitive shortcut `list(inst)` of
`_from_list_inst` agrees with elementwise serialization). -/
theorem Good_primitive_serialize_id (env : ClassEnv) (now : Int × Int) (rt : String)
    (v : PyValue) (seed : Option PyValue) (hg : Good env now rt v seed)
    (hprim : rt ∈ ros_primitive_types) : _from_inst v rt = .ok v := by
  cases hg with
  | binary rostype s seed hb hbytes => exact absurd hprim (binary_not_primitive rt hb)
  | time s n seed hseed => exact absurd hprim (by decide)
  | duration s n seed hseed => exact absurd hprim (by decide)
  | boolean b seed => rfl
  | intlike rostype n seed h =>
    obtain ⟨hp2, hb2, ht2⟩ := type_map_int_primitive rt h
    rw [_from_inst_eq_body]
    unfold _from_inst_body
    rw [if_neg hb2, if_neg ht2, if_pos hp2]
  | floatlike rostype q seed h =>
    obtain ⟨hp2, hb2, ht2⟩ := type_map_float_primitive rt h
    rw [_from_inst_eq_body]
    unfold _from_inst_body
    rw [if_neg hb2, if_neg ht2, if_pos hp2]
  | strlike s seed h => rfl
  | array rostype xs seed ys hb ht hp hseed helem => exact absurd hprim hp
  | obj rostype t fields sf seed hb ht hp hseed hnames hnodup hdrStamp hdrGood hfields =>
    exact absurd hprim hp

/-- Round trip for the elements of a list, given the round trip of each
element with no supplied target. -/
theorem list_elems_roundtrip (env : ClassEnv) (now : Int × Int) (et : String) :
    ∀ xs : List PyValue,
      (∀ x ∈ xs, ∃ m, _from_inst x et = .ok m
        ∧ ∀ (roottype : String) (stack : List String),
            _to_inst env now m et roottype none stack = Res.ok x) →
      ∃ ms, _from_inst_list xs et = .ok ms ∧ ms.length = xs.length
        ∧ ∀ (roottype : String) (stack : List String),
            _to_inst_list env now ms et roottype stack = .ok xs
  | [], _ => ⟨[], rfl, rfl, fun _ _ => rfl⟩
  | x :: rest, h => by
    obtain ⟨m, hser, hde⟩ := h x (List.mem_cons_self x rest)
    obtain ⟨ms, hser2, hlen, hde2⟩ :=
      list_elems_roundtrip env now et rest (fun y hy => h y (List.mem_cons_of_mem x hy))
    refine ⟨m :: ms, ?_, by simp [hlen], fun roottype stack => ?_⟩
    · simp only [_from_inst_list, hser, hser2]
    · simp only [_to_inst_list, hde roottype stack, hde2 roottype stack]

/-- Transport of a per-slot property along the update of one slot value:
the updated slot satisfies the property at the new value (by the second
hypothesis), all others keep theirs. -/
theorem zip_setattrF_transfer (P : (String × String × PyValue) → PyValue → Prop) :
    ∀ (fields sf : List (String × String × PyValue)) (k : String) (u : PyValue),
      sf.map (fun f => (f.1, f.2.1)) = fields.map (fun f => (f.1, f.2.1)) →
      (∀ p ∈ fields.zip sf, P p.1 p.2.2.2) →
      (∀ p ∈ fields.zip sf, p.1.1 = k → P p.1 u) →
      ∀ p ∈ fields.zip (setattrF sf k u), P p.1 p.2.2.2
  | [], sf, k, u, _, _, _ => by
    intro p hp
    simp at hp
  | f :: fs, [], k, u, hnames, _, _ => by
    simp at hnames
  | f :: fs, s :: ss, k, u, hnames, h1, h2 => by
    obtain ⟨n, ty, w⟩ := s
    obtain ⟨fn, fty, fw⟩ := f
    simp only [List.map_cons, List.cons.injEq, Prod.mk.injEq] at hnames
    obtain ⟨⟨hfn, hfty⟩, htail⟩ := hnames
    by_cases hnk : n = k
    · intro p hp
      simp only [setattrF, if_pos hnk, List.zip_cons_cons, List.mem_cons] at hp
      rcases hp with hp | hp
      · subst hp
        exact h2 ((fn, fty, fw), (n, ty, w)) (List.mem_cons_self _ _) (by simp [← hfn, hnk])
      · exact h1 p (List.mem_cons_of_mem _ hp)
    · intro p hp
      simp only [setattrF, if_neg hnk, List.zip_cons_cons, List.mem_cons] at hp
      rcases hp with hp | hp
      · subst hp
        exact h1 ((fn, fty, fw), (n, ty, w)) (List.mem_cons_self _ _)
      · exact zip_setattrF_transfer P fs ss k u htail
          (fun q hq => h1 q (List.mem_cons_of_mem _ hq))
          (fun q hq => h2 q (List.mem_cons_of_mem _ hq)) p hp

/-- The heart of the round trip for records: serializing the slots of a
record in declared order and replaying the resulting entries through the
field loop over a target that has the same slot names and declared types
(and arbitrary round-trippable slot values) rebuilds the record exactly. -/
theorem object_fields_roundtrip (env : ClassEnv) (now : Int × Int) :
    ∀ (Fsuf Ssuf Fpre : List (String × String × PyValue)) (t : String),
      Ssuf.map (fun f => (f.1, f.2.1)) = Fsuf.map (fun f => (f.1, f.2.1)) →
      ((Fpre ++ Fsuf).map (fun f => f.1)).Nodup →
      (∀ p ∈ Fsuf.zip Ssuf,
        ∃ m, _from_inst p.1.2.2 p.1.2.1 = .ok m
          ∧ ∀ (roottype : String) (stack : List String),
              _to_inst env now m p.1.2.1 roottype (some p.2.2.2) stack = Res.ok p.1.2.2) →
      ∃ es, _from_inst_fields Fsuf = .ok es
        ∧ ∀ (roottype : String) (stack : List String),
            _to_object_fields env now es roottype (.pymsg t (Fpre ++ Ssuf)) stack
              = .ok (.pymsg t (Fpre ++ Fsuf))
  | [], Ssuf, Fpre, t, hnames, _, _ => by
    have hs : Ssuf = [] := by
      cases Ssuf with
      | nil => rfl
      | cons a l => simp at hnames
    subst hs
    exact ⟨[], rfl, fun roottype stack => by simp [_to_object_fields]⟩
  | (n, ty, val) :: Fs, Ssuf, Fpre, t, hnames, hnodup, hpairs => by
    cases Ssuf with
    | nil => simp at hnames
    | cons s Ss =>
      obtain ⟨sn, sty, sval⟩ := s
      simp only [List.map_cons, List.cons.injEq, Prod.mk.injEq] at hnames
      obtain ⟨⟨hsn, hsty⟩, htail⟩ := hnames
      subst hsn
      subst hsty
      obtain ⟨m, hser, hde⟩ := hpairs ((sn, sty, val), (sn, sty, sval)) (List.mem_cons_self _ _)
      dsimp only at hser hde
      obtain ⟨es2, hser2, hde2⟩ :=
        object_fields_roundtrip env now Fs Ss (Fpre ++ [(sn, sty, val)]) t htail
          (by simpa [List.append_assoc] using hnodup)
          (fun q hq => hpairs q (List.mem_cons_of_mem _ hq))
      have hnotpre : sn ∉ Fpre.map (fun f => f.1) := by
        have hmapped : (Fpre.map (fun f => f.1)
            ++ (sn :: Fs.map (fun f => f.1))).Nodup := by
          simpa using hnodup
        have hd := (List.nodup_append.mp hmapped).2.2
        intro hn
        exact hd hn (List.mem_cons_self _ _)
      refine ⟨(sn, m) :: es2, ?_, fun roottype stack => ?_⟩
      · simp only [_from_inst_fields, hser, hser2]
      · simp only [_to_object_fields]
        rw [slotLookup_append_not_mem Fpre ((sn, sty, sval) :: Ss) sn hnotpre]
        simp only [slotLookup, eq_self_iff_true, if_true, hde roottype (stack ++ [sn]),
          setattrF_append_not_mem Fpre ((sn, sty, sval) :: Ss) sn val hnotpre, setattrF]
        have e1 : Fpre ++ (sn, sty, val) :: Ss = (Fpre ++ [(sn, sty, val)]) ++ Ss := by simp
        have e2 : Fpre ++ (sn, sty, val) :: Fs = (Fpre ++ [(sn, sty, val)]) ++ Fs := by simp
        rw [e1, e2]
        exact hde2 roottype stack

/-- Serializing a list of values whose serialization is the identity is the
identity on the list. -/
theorem _from_inst_list_id (et : String) :
    ∀ xs : List PyValue, (∀ x ∈ xs, _from_inst x et = .ok x) →
      _from_inst_list xs et = .ok xs
  | [], _ => rfl
  | x :: rest, h => by
    simp only [_from_inst_list, h x (List.mem_cons_self x rest),
      _from_inst_list_id et rest (fun y hy => h y (List.mem_cons_of_mem x hy))]

/-- The slot names of the seed instance agree with those of the record. -/
theorem names_of_nameTy (sf fields : List (String × String × PyValue))
    (hnames : sf.map (fun f => (f.1, f.2.1)) = fields.map (fun f => (f.1, f.2.1))) :
    sf.map (fun f => f.1) = fields.map (fun f => f.1) := by
  have h2 := congrArg (List.map Prod.fst) hnames
  simpa [List.map_map, Function.comp] using h2

/-- Round trip: a representable value serializes successfully, and
deserializing the result against its seed restores the value exactly. -/
theorem Good_roundtrip (env : ClassEnv) (now : Int × Int) :
    ∀ (rostype : String) (v : PyValue) (seed : Option PyValue),
      Good env now rostype v seed →
      ∃ m, _from_inst v rostype = .ok m
        ∧ ∀ (roottype : String) (stack : List String),
            _to_inst env now m rostype roottype seed stack = Res.ok v := by
  intro rostype v seed hg
  induction hg with
  | binary rostype s seed hb hbytes =>
    refine ⟨.pystr (standard_b64encode s), ?_, fun roottype stack => ?_⟩
    · rw [_from_inst_eq_body]
      unfold _from_inst_body
      rw [if_pos hb]
    · rw [_to_inst_eq_body]
      unfold _to_inst_body
      rw [if_pos hb]
      have hdec : standard_b64decode (standard_b64encode s) = some s :=
        decodeChunks_encodeChunks s hbytes
      simp [_to_binary_inst, hdec]
  | time s n seed hseed =>
    rcases hseed with h | ⟨a, b, h⟩ <;> subst h <;> exact ⟨_, rfl, fun _ _ => rfl⟩
  | duration s n seed hseed =>
    rcases hseed with h | ⟨a, b, h⟩ <;> subst h <;> exact ⟨_, rfl, fun _ _ => rfl⟩
  | boolean b seed => exact ⟨_, rfl, fun _ _ => rfl⟩
  | intlike rostype n seed h =>
    obtain ⟨hp2, hb2, ht2⟩ := type_map_int_primitive rostype h
    refine ⟨.pyint n, ?_, fun roottype stack => ?_⟩
    · rw [_from_inst_eq_body]
      unfold _from_inst_body
      rw [if_neg hb2, if_neg ht2, if_pos hp2]
    · rw [_to_inst_eq_body]
      unfold _to_inst_body
      rw [if_neg hb2, if_neg ht2, if_pos hp2]
      unfold _to_primitive_inst
      simp [h]
  | floatlike rostype q seed h =>
    obtain ⟨hp2, hb2, ht2⟩ := type_map_float_primitive rostype h
    refine ⟨.pyfloat q, ?_, fun roottype stack => ?_⟩
    · rw [_from_inst_eq_body]
      unfold _from_inst_body
      rw [if_neg hb2, if_neg ht2, if_pos hp2]
    · rw [_to_inst_eq_body]
      unfold _to_inst_body
      rw [if_neg hb2, if_neg ht2, if_pos hp2]
      unfold _to_primitive_inst
      simp [h]
  | strlike s seed h =>
    have hfix : s.filter (fun b => b < 128) = s := List.filter_eq_self.mpr (by simpa using h)
    refine ⟨.pystr s, rfl, fun roottype stack => ?_⟩
    have h2 : _to_inst env now (.pystr s) "string" roottype seed stack
        = Res.ok (.pystr (s.filter (fun b => b < 128))) := rfl
    rw [h2, hfix]
  | array rostype xs seed ys hb ht hp hseed helem ih =>
    have hlistseed : isListSeed seed = true := by
      rcases hseed with h | h <;> subst h <;> rfl
    cases xs with
    | nil =>
      refine ⟨.pylist [], ?_, fun roottype stack => ?_⟩
      · rw [_from_inst_eq_body]
        unfold _from_inst_body
        rw [if_neg hb, if_neg ht, if_neg hp]
      · rw [_to_inst_eq_body]
        unfold _to_inst_body
        rw [if_neg hb, if_neg ht, if_neg hp, hlistseed]
        simp
    | cons x rest =>
      obtain ⟨ms, hserl, hlen, hdel⟩ := list_elems_roundtrip env now (stripBraces rostype)
        (x :: rest) ih
      by_cases hprim : stripBraces rostype ∈ ros_primitive_types
      · have hser_id : _from_inst_list (x :: rest) (stripBraces rostype) = .ok (x :: rest) :=
          _from_inst_list_id (stripBraces rostype) (x :: rest)
            (fun y hy => Good_primitive_serialize_id env now (stripBraces rostype) y none
              (helem y hy) hprim)
        have hms : ms = x :: rest := by
          rw [hser_id] at hserl
          exact (Except.ok.injEq _ _).mp hserl.symm
        subst hms
        refine ⟨.pylist (x :: rest), ?_, fun roottype stack => ?_⟩
        · rw [_from_inst_eq_body]
          unfold _from_inst_body
          rw [if_neg hb, if_neg ht, if_neg hp]
          simp [hprim]
        · rw [_to_inst_eq_body]
          unfold _to_inst_body
          rw [if_neg hb, if_neg ht, if_neg hp, hlistseed]
          simp [hdel roottype stack]
      · refine ⟨.pylist ms, ?_, fun roottype stack => ?_⟩
        · rw [_from_inst_eq_body]
          unfold _from_inst_body
          rw [if_neg hb, if_neg ht, if_neg hp]
          simp [hprim, hserl]
        · rw [_to_inst_eq_body]
          unfold _to_inst_body
          rw [if_neg hb, if_neg ht, if_neg hp, hlistseed]
          cases ms with
          | nil => simp at hlen
          | cons m0 ms2 =>
            simp [hdel roottype stack]
  | obj rostype t fields sf seed hb ht hp hseed hnames hnodup hdrStamp hdrGood hfields
      ihHdr ihFields =>
    have hsfnames : sf.map (fun f => f.1) = fields.map (fun f => f.1) :=
      names_of_nameTy sf fields hnames
    by_cases hh : rostype ∈ ros_header_types
    · -- header convention: the seed gets auto-stamped before the field loop
      have hstamp : (slotLookup sf "stamp").isSome = true :=
        slotLookup_isSome_of_mem sf "stamp" (by rw [hsfnames]; exact hdrStamp hh)
      have hnames2 : (setattrF sf "stamp" (mkTime now)).map (fun f => (f.1, f.2.1))
          = fields.map (fun f => (f.1, f.2.1)) := by
        rw [setattrF_map_nameTy]
        exact hnames
      have hpairs2 : ∀ p ∈ fields.zip (setattrF sf "stamp" (mkTime now)),
          ∃ m, _from_inst p.1.2.2 p.1.2.1 = .ok m
            ∧ ∀ (roottype : String) (stack : List String),
                _to_inst env now m p.1.2.1 roottype (some p.2.2.2) stack = Res.ok p.1.2.2 :=
        zip_setattrF_transfer
          (fun f sv => ∃ m, _from_inst f.2.2 f.2.1 = .ok m
            ∧ ∀ (roottype : String) (stack : List String),
                _to_inst env now m f.2.1 roottype (some sv) stack = Res.ok f.2.2)
          fields sf "stamp" (mkTime now) hnames ihFields (fun p hp heq => ihHdr hh p hp heq)
      obtain ⟨es, hserf, hfold⟩ := object_fields_roundtrip env now fields
        (setattrF sf "stamp" (mkTime now)) [] t hnames2 (by simpa using hnodup) hpairs2
      refine ⟨.pydict es, ?_, fun roottype stack => ?_⟩
      · rw [_from_inst_eq_body]
        unfold _from_inst_body
        rw [if_neg hb, if_neg ht, if_neg hp]
        simp [hserf]
      · rw [_to_inst_eq_body]
        unfold _to_inst_body
        have hos : objectSeed env now rostype seed
            = .ok (.pymsg t (setattrF sf "stamp" (mkTime now)),
                match seed with | some _ => false | none => true) := by
          rcases hseed with hsd | ⟨hsd, hmc⟩
          · subst hsd
            exact objectSeed_some_header env now rostype t sf hh hstamp
          · subst hsd
            rw [objectSeed_none_vs_some env now rostype ⟨t, sf⟩ hmc]
            rw [show instantiate ⟨t, sf⟩ = PyValue.pymsg t sf from rfl]
            rw [objectSeed_some_header env now rostype t sf hh hstamp]
        have hlistseed : isListSeed seed = false := by
          rcases hseed with hsd | ⟨hsd, hmc⟩ <;> subst hsd <;> rfl
        rw [if_neg hb, if_neg ht, if_neg hp, hlistseed]
        simp only [Bool.false_eq_true, if_false, hos]
        have := hfold roottype stack
        simp only [List.nil_append] at this
        simp [this]
    · -- plain record type
      obtain ⟨es, hserf, hfold⟩ := object_fields_roundtrip env now fields sf [] t hnames
        (by simpa using hnodup) ihFields
      refine ⟨.pydict es, ?_, fun roottype stack => ?_⟩
      · rw [_from_inst_eq_body]
        unfold _from_inst_body
        rw [if_neg hb, if_neg ht, if_neg hp]
        simp [hserf]
      · rw [_to_inst_eq_body]
        unfold _to_inst_body
        have hos : objectSeed env now rostype seed
            = .ok (.pymsg t sf, match seed with | some _ => false | none => true) := by
          rcases hseed with hsd | ⟨hsd, hmc⟩
          · subst hsd
            exact objectSeed_some_plain env now rostype t sf hh
          · subst hsd
            exact objectSeed_none_plain env now rostype ⟨t, sf⟩ hh hmc
        have hlistseed : isListSeed seed = false := by
          rcases hseed with hsd | ⟨hsd, hmc⟩ <;> subst hsd <;> rfl
        rw [if_neg hb, if_neg ht, if_neg hp, hlistseed]
        simp only [Bool.false_eq_true, if_false, hos]
        have := hfold roottype stack
        simp only [List.nil_append] at this
        simp [this]

/-! ## Claim C6 -/

/-- C6 counterexample: round-tripping a header record does not put the
live clock into the timestamp field. Serializing a Header with stamp
(5, 6) and deserializing into a fresh instance under clock (100, 0)
restores stamp (5, 6) exactly — the serialized stamp entry overwrites the
auto-stamp — so the round trip is exact and the stamp does not equal the
clock. -/
theorem roundtrip_header_stamp_not_clock_cex :
    extract_values (.pymsg "std_msgs/Header"
        [("seq", "uint32", .pyint 7), ("stamp", "time", .pytime (.pyint 5) (.pyint 6)),
         ("frame_id", "string", strLit "base")])
      = .ok (.pydict [("seq", .pyint 7),
                      ("stamp", .pydict [("secs", .pyint 5), ("nsecs", .pyint 6)]),
                      ("frame_id", strLit "base")])
    ∧ populate_instance [] (100, 0)
        (.pydict [("seq", .pyint 7),
                  ("stamp", .pydict [("secs", .pyint 5), ("nsecs", .pyint 6)]),
                  ("frame_id", strLit "base")])
        (instantiate headerClass)
      = Res.ok (.pymsg "std_msgs/Header"
          [("seq", "uint32", .pyint 7), ("stamp", "time", .pytime (.pyint 5) (.pyint 6)),
           ("frame_id", "string", strLit "base")])
    ∧ PyValue.pytime (.pyint 5) (.pyint 6) ≠ mkTime (100, 0) := by
  refine ⟨rfl, rfl, ?_⟩
  simp [mkTime]

/-- C6 as amended: for any record with representable fields, deserializing
the serialization into a fresh instance of the same class restores the
record exactly field by field — including header-convention timestamp
fields, which are restored from the serialized stamp entry (the
deserializer first sets them to the live clock, but the input stamp entry
is then applied on top), not replaced by the live clock value. -/
theorem roundtrip_exact_field_wise :
    ∀ (env : ClassEnv) (now : Int × Int) (t : String)
      (fields : List (String × String × PyValue)) (fresh : PyValue),
      Good env now t (.pymsg t fields) (some fresh) →
      ∃ m, extract_values (.pymsg t fields) = .ok m
        ∧ populate_instance env now m fresh = Res.ok (.pymsg t fields) := by
  intro env now t fields fresh hg
  have hfresh : ∃ sf, fresh = .pymsg t sf := by
    cases hg with
    | obj rostype t2 fields2 sf seed hb ht hp hseed hnames hnodup hdrStamp hdrGood hfields =>
      rcases hseed with hsd | ⟨hsd, _⟩
      · exact ⟨sf, by injection hsd⟩
      · cases hsd
  obtain ⟨sf, hf⟩ := hfresh
  obtain ⟨m, hser, hde⟩ := Good_roundtrip env now t (.pymsg t fields) (some fresh) hg
  subst hf
  exact ⟨m, hser, hde t []⟩

/-- C6 amended witness: the concrete Header record with stamp (5, 6) under
clock (100, 0) round-trips exactly via the general theorem. -/
theorem roundtrip_exact_field_wise_witness :
    ∃ m, extract_values (.pymsg "std_msgs/Header"
        [("seq", "uint32", .pyint 7), ("stamp", "time", .pytime (.pyint 5) (.pyint 6)),
         ("frame_id", "string", strLit "base")]) = .ok m
      ∧ populate_instance [] (100, 0) m (instantiate headerClass)
          = Res.ok (.pymsg "std_msgs/Header"
              [("seq", "uint32", .pyint 7), ("stamp", "time", .pytime (.pyint 5) (.pyint 6)),
               ("frame_id", "string", strLit "base")]) := by
  apply roundtrip_exact_field_wise [] (100, 0) "std_msgs/Header"
    [("seq", "uint32", .pyint 7), ("stamp", "time", .pytime (.pyint 5) (.pyint 6)),
     ("frame_id", "string", strLit "base")] (instantiate headerClass)
  refine Good.obj "std_msgs/Header" "std_msgs/Header"
    [("seq", "uint32", .pyint 7), ("stamp", "time", .pytime (.pyint 5) (.pyint 6)),
     ("frame_id", "string", strLit "base")]
    headerClass.fields (some (instantiate headerClass))
    (by decide) (by decide) (by decide) (Or.inl rfl) rfl (by decide)
    (fun _ => by decide) (fun hh p hp heq => ?_) (fun p hp => ?_)
  · fin_cases hp
    · simp at heq
    · exact Good.time (.pyint 5) (.pyint 6) _ (Or.inr ⟨_, _, rfl⟩)
    · simp at heq
  · fin_cases hp
    · exact Good.intlike "uint32" 7 _ (by decide)
    · exact Good.time (.pyint 5) (.pyint 6) _ (Or.inr ⟨_, _, rfl⟩)
    · exact Good.strlike ("base".data.map Char.toNat) _ (by decide)

end MsgConv
